import Mathlib

/-!
Shallow embedding of the flight-service dashboard core (SSMM/SDP
"listado de vuelos"): the date normalizer (`parse_work_date` from the SQL
schema, `parseCsvDateToIso` from the client), the deterministic ranking,
the category quota, the auto-assignment engine (`run_auto_assignment`),
the flight lifecycle trigger (`enforce_flight_operated_rules` split into
its INSERT and UPDATE branches) and the compare-and-swap
`markFlightOperated`, together with theorems settling the specification's
claims about them.

Text primitives (`trim`, `lpad`, `regexp_split_to_array`, `to_char`
rendering, JS string methods) are modelled over `List Char` so that every
definition is executable and kernel-reducible; `String.data` bridges to
Lean string literals. SQL `text` comparison and JS `localeCompare` are
modelled as the lexicographic order on code points.
-/

deriving instance DecidableEq for Except

namespace SSMM

/-! ## Character-list text primitives -/

/-- ASCII whitespace test used by the JS-side `trim`. -/
def isWS (c : Char) : Bool :=
  c = ' ' || c = '\t' || c = '\n' || c = '\r'

/-- Generic both-ends trim. -/
def trimWith (p : Char → Bool) (cs : List Char) : List Char :=
  ((cs.dropWhile p).reverse.dropWhile p).reverse

/-- Models PostgreSQL `trim(...)` (default: strips spaces). -/
def trimSpaces (cs : List Char) : List Char :=
  trimWith (fun c => c = ' ') cs

/-- Models JS `String.prototype.trim` (ASCII whitespace subset). -/
def trimWS (cs : List Char) : List Char :=
  trimWith isWS cs

/-- Models `regexp_split_to_array`/`String.prototype.split` on one
separator character. -/
def splitOnChar (sep : Char) : List Char → List (List Char)
  | [] => [[]]
  | c :: rest =>
    let r := splitOnChar sep rest
    if c = sep then
      [] :: r
    else
      match r with
      | [] => [[c]]
      | p :: ps => (c :: p) :: ps

/-- Numeric value of a big-endian decimal digit string
(models `to_date` field reading / JS `Number(...)` on digit strings). -/
def digitsVal (cs : List Char) : Nat :=
  cs.foldl (fun n c => n * 10 + (c.toNat - 48)) 0

/-- The decimal digit character for `n < 10`. -/
def digitChar (n : Nat) : Char :=
  Char.ofNat (48 + n)

/-- Big-endian decimal digits of `n` (empty for `0`); `fuel ≥ n` suffices. -/
def natDigits : Nat → Nat → List Char
  | 0, _ => []
  | fuel + 1, n => if n = 0 then [] else natDigits fuel (n / 10) ++ [digitChar (n % 10)]

/-- Decimal rendering of a natural number. -/
def natToChars (n : Nat) : List Char :=
  if n = 0 then ['0'] else natDigits n n

/-- Left-pad with `'0'` to width `w` (models SQL `lpad(s, w, '0')` and
JS `padStart(w, '0')` for digit strings of length at most `w`). -/
def padZ (w : Nat) (cs : List Char) : List Char :=
  List.replicate (w - cs.length) '0' ++ cs

/-- Two-digit zero-padded rendering (models `to_char(..., 'DD')`/`'MM'`). -/
def toChar2 (n : Nat) : List Char :=
  padZ 2 (natToChars n)

/-- Four-digit zero-padded rendering (models `to_char(..., 'YYYY')`). -/
def toChar4 (n : Nat) : List Char :=
  padZ 4 (natToChars n)

/-- ASCII lower-casing of one character (models SQL `lower`/JS
`toLowerCase` on the ASCII range). -/
def lowerChar (c : Char) : Char :=
  if 'A' ≤ c ∧ c ≤ 'Z' then Char.ofNat (c.toNat + 32) else c

/-- ASCII lower-casing of a string. -/
def lowerStr (s : String) : String :=
  String.mk (s.data.map lowerChar)

/-! ## Calendar dates -/

/-- A calendar date as produced by the date normalizer. -/
structure CivilDate where
  year : Nat
  month : Nat
  day : Nat
deriving DecidableEq

/-- Gregorian leap-year rule. -/
def isLeapYear (y : Nat) : Bool :=
  (y % 4 = 0 && y % 100 ≠ 0) || y % 400 = 0

/-- Number of days in month `m` of year `y` (for `1 ≤ m ≤ 12`). -/
def daysInMonth (y m : Nat) : Nat :=
  if m = 2 then (if isLeapYear y then 29 else 28)
  else if m = 4 ∨ m = 6 ∨ m = 9 ∨ m = 11 then 30
  else 31

/-- Calendar validity of a year/month/day triple. -/
def validYMD (y m d : Nat) : Bool :=
  1 ≤ m && m ≤ 12 && 1 ≤ d && d ≤ daysInMonth y m

/-- Models `to_date` on already-split numeric fields: modern PostgreSQL
rejects calendar-invalid field values (`date/time field value out of
range`), modelled as `none`; a valid triple yields the date itself. The
same test models the validity check JS `new Date(iso)` performs. -/
def toDateOpt (y m d : Nat) : Option CivilDate :=
  if validYMD y m d then some ⟨y, m, d⟩ else none

/-- Models `to_char(date, 'YYYY-MM-DD')`. -/
def toCharISO (dt : CivilDate) : List Char :=
  toChar4 dt.year ++ '-' :: (toChar2 dt.month ++ '-' :: toChar2 dt.day)

/-- Models `to_char(date, 'DD/MM/YYYY')` (or with `'-'` as separator). -/
def toCharDMY (sep : Char) (dt : CivilDate) : List Char :=
  toChar2 dt.day ++ sep :: (toChar2 dt.month ++ sep :: toChar4 dt.year)

/-- Canonical ISO-8601 string of a date, as stored and compared. -/
def civilToIso (dt : CivilDate) : String :=
  String.mk (toCharISO dt)

/-! ## The server-side date normalizer `public.parse_work_date` -/

/-- Shape test and field extraction for the regex
`^\d{4}-\d{2}-\d{2}$` (returns the year/month/day digit substrings). -/
def isoShape? (cs : List Char) : Option (List Char × List Char × List Char) :=
  match splitOnChar '-' cs with
  | [y, m, d] =>
    if y.length = 4 ∧ m.length = 2 ∧ d.length = 2 ∧
        y.all Char.isDigit ∧ m.all Char.isDigit ∧ d.all Char.isDigit then
      some (y, m, d)
    else
      none
  | _ => none

/-- Shape test and field extraction for the day-first regexes
`^\d{1,2}/\d{1,2}/\d{4}$` and `^\d{1,2}-\d{1,2}-\d{4}$` (returns the
day/month/year digit substrings). -/
def dmyShape? (sep : Char) (cs : List Char) : Option (List Char × List Char × List Char) :=
  match splitOnChar sep cs with
  | [d, m, y] =>
    if (d.length = 1 ∨ d.length = 2) ∧ (m.length = 1 ∨ m.length = 2) ∧ y.length = 4 ∧
        d.all Char.isDigit ∧ m.all Char.isDigit ∧ y.all Char.isDigit then
      some (d, m, y)
    else
      none
  | _ => none

/-- Branch of `parse_work_date` for a day-first shape: zero-pad the day
and month fields, parse, re-serialize with `to_char` and require the
result to round-trip to the zero-padded text. -/
def parseDMY (sep : Char) (d m y : List Char) : Option CivilDate :=
  let norm := padZ 2 d ++ sep :: (padZ 2 m ++ sep :: y)
  match toDateOpt (digitsVal y) (digitsVal m) (digitsVal d) with
  | some dt => if toCharDMY sep dt = norm then some dt else none
  | none => none

/-- Core of `public.parse_work_date` on the trimmed character list. -/
def parseWorkDateChars (cs : List Char) : Option CivilDate :=
  if cs = [] then none
  else
    match isoShape? cs with
    | some (y, m, d) =>
      (match toDateOpt (digitsVal y) (digitsVal m) (digitsVal d) with
       | some dt => if toCharISO dt = cs then some dt else none
       | none => none)
    | none =>
      match dmyShape? '/' cs with
      | some (d, m, y) => parseDMY '/' d m y
      | none =>
        match dmyShape? '-' cs with
        | some (d, m, y) => parseDMY '-' d m y
        | none => none

/-- Models `public.parse_work_date(p_value text) returns date`: trim,
try the three accepted shapes in order, zero-pad, parse, and reject
anything that does not round-trip; blank input gives no date. -/
def parse_work_date (s : String) : Option CivilDate :=
  parseWorkDateChars (trimSpaces s.data)

/-! ## The client-side date normalizer `parseCsvDateToIso` -/

/-- Models the client's `buildIsoDate(year, month, day)`: zero-pad the
components, build the ISO candidate, let JS `Date` validate it, and
require the parsed date to match the numeric components; returns the ISO
character list or `[]` (the code's `''`). -/
def buildIsoDate (yearS monthS dayS : List Char) : List Char :=
  let ny := padZ 4 yearS
  let nm := padZ 2 monthS
  let nd := padZ 2 dayS
  let iso := ny ++ '-' :: (nm ++ '-' :: nd)
  match toDateOpt (digitsVal ny) (digitsVal nm) (digitsVal nd) with
  | none => []
  | some dt =>
    if dt.year = digitsVal ny ∧ dt.month = digitsVal nm ∧ dt.day = digitsVal nd then
      iso
    else
      []

/-- Models the client's `parseCsvDateToIso`: trim, match the ISO /
slash / dash shapes, and delegate to `buildIsoDate`; unmatched shapes
give `""`. -/
def parseCsvDateToIso (s : String) : String :=
  let cs := trimWS s.data
  if cs = [] then ""
  else
    match isoShape? cs with
    | some (y, m, d) => String.mk (buildIsoDate y m d)
    | none =>
      match dmyShape? '/' cs with
      | some (d, m, y) => String.mk (buildIsoDate y m d)
      | none =>
        match dmyShape? '-' cs with
        | some (d, m, y) => String.mk (buildIsoDate y m d)
        | none => ""

/-! ## Data model -/

/-- The `service_flag` enum (`flights_service_flag_values` check). -/
inductive ServiceFlag
  | ATENDER
  | NO_ATENDER
deriving DecidableEq

/-- The `service_flag_source` enum (`flights_service_flag_source_values`
check). -/
inductive FlagSource
  | auto
  | manual
deriving DecidableEq

/-- One row of `public.flights` / one client `FlightRecord`. Timestamps
and identifiers are opaque strings; nullable columns are `Option`s. -/
structure Flight where
  id : String
  datasetId : String
  flightKey : String
  categoriaClasificacion : String
  tipo : String := ""
  fecha : String
  hora : String := ""
  cia : String := ""
  dscia : String := ""
  cdocia : String := ""
  vuelo : String := ""
  operated : Bool := false
  operatedAt : Option String := none
  operatedByEmail : Option String := none
  serviceFlag : Option ServiceFlag := none
  serviceFlagSource : Option FlagSource := none
  serviceFlagUpdatedAt : Option String := none
  serviceFlagUpdatedByEmail : Option String := none
  serviceFlagRunId : Option String := none
deriving DecidableEq

/-- One row of `public.category_targets`; `target_percent` is
`numeric(5,2)`, modelled as an exact rational. -/
structure CategoryTargetRow where
  datasetId : String
  category : String
  targetPercent : ℚ
deriving DecidableEq

/-- One entry of the per-category summary built by the engine. -/
structure SummaryEntry where
  category : String
  total : Nat
  targetPercent : ℚ
  requiredCount : Nat
  assignedCount : Nat
deriving DecidableEq

/-- One row of `public.assignment_runs`. -/
structure AssignmentRun where
  id : String
  datasetId : String
  workDate : String
  seed : String
  summary : List SummaryEntry
  updatedFlights : Nat
  createdBy : String
deriving DecidableEq

/-- The mutable store: dataset ids, flight rows, category targets and
the append-only run records. -/
structure DBState where
  datasets : List String
  flights : List Flight
  targets : List CategoryTargetRow
  runs : List AssignmentRun

/-- The `flights_operated_metadata` check constraint and the lifecycle
invariant: unoperated rows carry no metadata, operated rows carry both. -/
def operatedInv (f : Flight) : Prop :=
  (f.operated = false → f.operatedAt = none ∧ f.operatedByEmail = none) ∧
  (f.operated = true → f.operatedAt.isSome ∧ f.operatedByEmail.isSome)

/-! ## The lifecycle trigger `enforce_flight_operated_rules` -/

/-- The single error the trigger can raise
(`No se puede desmarcar un vuelo ya operado`). -/
inductive TriggerError
  | IllegalTransition
deriving DecidableEq

/-- Models `coalesce(trim(x), '') = ''` on a nullable text. -/
def isBlankOpt : Option String → Bool
  | none => true
  | some s => trimSpaces s.data = []

/-- BEFORE INSERT branch of `enforce_flight_operated_rules`:
normalizes the operated metadata of a fresh row. `currentEmail` models
`public.current_user_email()`, `now` models `timezone('utc', now())`. -/
def triggerInsert (currentEmail now : String) (new : Flight) : Flight :=
  if new.operated then
    let at' := match new.operatedAt with
      | none => some now
      | some t => some t
    let by' := if isBlankOpt new.operatedByEmail then currentEmail else new.operatedByEmail.getD ""
    { new with operatedAt := at', operatedByEmail := some (lowerStr by') }
  else
    { new with operatedAt := none, operatedByEmail := none }

/-- BEFORE UPDATE branch of `enforce_flight_operated_rules`: rejects
true→false, keeps provenance on true→true, fills metadata on
false→true, and clears it on false→false. -/
def triggerUpdate (currentEmail now : String) (old new : Flight) :
    Except TriggerError Flight :=
  if old.operated = true ∧ new.operated = false then
    .error .IllegalTransition
  else if old.operated = true ∧ new.operated = true then
    .ok { new with operated := true, operatedAt := old.operatedAt,
                   operatedByEmail := old.operatedByEmail }
  else if old.operated = false ∧ new.operated = true then
    let at' := match new.operatedAt with
      | none => some now
      | some t => some t
    let by' := if isBlankOpt new.operatedByEmail then currentEmail else new.operatedByEmail.getD ""
    .ok { new with operatedAt := at', operatedByEmail := some (lowerStr by') }
  else
    .ok { new with operated := false, operatedAt := none, operatedByEmail := none }

/-- Totalized trigger result (the caller's view of the row after a
successful UPDATE; on the error branch the transaction aborts, so the
fallback value is never observed). -/
def triggerUpdateT (currentEmail now : String) (old new : Flight) : Flight :=
  match triggerUpdate currentEmail now old new with
  | .ok r => r
  | .error _ => old

/-- Applies an UPDATE statement row by row through the trigger,
short-circuiting on the first raised exception (which aborts the whole
statement). -/
def updateFlightsList (currentEmail now : String) (cond : Flight → Bool)
    (set : Flight → Flight) : List Flight → Except TriggerError (List Flight)
  | [] => .ok []
  | f :: fs =>
    match (if cond f then triggerUpdate currentEmail now f (set f) else .ok f) with
    | .error e => .error e
    | .ok f' =>
      match updateFlightsList currentEmail now cond set fs with
      | .error e => .error e
      | .ok fs' => .ok (f' :: fs')

/-- An UPDATE against the flights table: on a trigger exception the
transaction rolls back and the state is unchanged (the error is
surfaced). -/
def updateFlightRows (currentEmail now : String) (cond : Flight → Bool)
    (set : Flight → Flight) (st : DBState) : Except TriggerError DBState :=
  match updateFlightsList currentEmail now cond set st.flights with
  | .error e => .error e
  | .ok fs' => .ok { st with flights := fs' }

/-! ## `markFlightOperated` (client compare-and-swap) -/

/-- Models the client's `normalizeEmail`: `email.trim().toLowerCase()`. -/
def normalizeEmail (email : String) : String :=
  lowerStr (String.mk (trimWS email.data))

/-- The SET payload `markFlightOperated` sends. -/
def markPayload (now email : String) (f : Flight) : Flight :=
  { f with operated := true, operatedAt := some now,
           operatedByEmail := some (normalizeEmail email) }

/-- Row result of the conditional update (the condition guarantees
`old.operated = false`, so the trigger cannot raise). -/
def markRowTransform (currentEmail now email : String) (f : Flight) : Flight :=
  triggerUpdateT currentEmail now f (markPayload now email f)

/-- Models `markFlightOperated(flightId, operatorEmail)`: an UPDATE
filtered by `id = flightId AND operated = false` (the compare-and-swap),
returning the updated row, or `none` when zero rows matched
(`AlreadyOperated`). -/
def markFlightOperated (currentEmail now flightId email : String)
    (st : DBState) : DBState × Option Flight :=
  let cond : Flight → Bool := fun f => f.id = flightId ∧ f.operated = false
  match st.flights.find? cond with
  | none => (st, none)
  | some f =>
    ({ st with flights := st.flights.map fun g =>
        if cond g then markRowTransform currentEmail now email g else g },
     some (markRowTransform currentEmail now email f))

/-! ## Category quota -/

/-- Ceiling division `⌈a / b⌉` for a positive divisor, in executable
integer arithmetic. -/
def ceilDiv (a b : ℤ) : ℤ :=
  -((-a).fdiv b)

/-- Models `least(total, ceil(total * target_percent / 100.0)::integer)`.
The rational `total * targetPercent / 100` is written out over the
numerator and denominator of `targetPercent` so that the definition is
kernel-executable; the theorem `requiredCountZ_eq_ceil` identifies it
with the `min total ⌈total * targetPercent / 100⌉` reading. -/
def requiredCountZ (total : ℤ) (targetPercent : ℚ) : ℤ :=
  min total (ceilDiv (total * targetPercent.num) (100 * targetPercent.den))

/-- The quota as a natural number, as consumed by the engine. -/
def requiredCount (total : Nat) (targetPercent : ℚ) : Nat :=
  (requiredCountZ total targetPercent).toNat

/-! ## Deterministic ranking -/

/-- The client's `hashString`: a 31-ary polynomial hash folded over the
UTF-16 code units with `>>> 0` (modelled on code points; identical on
the Basic Multilingual Plane). -/
def hashString (s : String) : Nat :=
  s.data.foldl (fun h c => (h * 31 + c.toNat) % 4294967296) 0

/-- The string the server hashes for ranking:
`md5(f.flight_key || '|' || v_seed)` hashes this argument. -/
def serverHashInput (flightKey seed : String) : String :=
  flightKey ++ "|" ++ seed

/-- The string the client hashes for ranking:
`hashString(seed + "|" + flight.flightKey)` hashes this argument. -/
def clientHashInput (flightKey seed : String) : String :=
  seed ++ "|" ++ flightKey

/-- The shared ranking order: ascending by a hash key, ties broken by
the flight key (read lexicographically on code points). -/
def rankLe {K : Type} [LinearOrder K] (hkey : Flight → K) (a b : Flight) : Prop :=
  hkey a < hkey b ∨ (hkey a = hkey b ∧ a.flightKey.data ≤ b.flightKey.data)

/-- Strict version of `rankLe`. -/
def rankLt {K : Type} [LinearOrder K] (hkey : Flight → K) (a b : Flight) : Prop :=
  hkey a < hkey b ∨ (hkey a = hkey b ∧ a.flightKey.data < b.flightKey.data)

instance {K : Type} [LinearOrder K] (hkey : Flight → K) : DecidableRel (rankLe hkey) :=
  fun a b => inferInstanceAs
    (Decidable (hkey a < hkey b ∨ (hkey a = hkey b ∧ a.flightKey.data ≤ b.flightKey.data)))

instance {K : Type} [LinearOrder K] (hkey : Flight → K) : DecidableRel (rankLt hkey) :=
  fun a b => inferInstanceAs
    (Decidable (hkey a < hkey b ∨ (hkey a = hkey b ∧ a.flightKey.data < b.flightKey.data)))

/-- The shared pure ranking function: a stable sort under `rankLe`. -/
def rankFlights {K : Type} [LinearOrder K] (hkey : Flight → K)
    (fs : List Flight) : List Flight :=
  fs.insertionSort (rankLe hkey)

/-- The server's ranking order, from
`order by md5(f.flight_key || '|' || v_seed), f.flight_key`: the md5 hex
digest is compared as text. `md5hex` is the external md5-to-hex
primitive, kept as a parameter. -/
def serverRankLe (md5hex : String → String) (seed : String) (a b : Flight) : Prop :=
  (md5hex (serverHashInput a.flightKey seed)).data < (md5hex (serverHashInput b.flightKey seed)).data ∨
  ((md5hex (serverHashInput a.flightKey seed)).data = (md5hex (serverHashInput b.flightKey seed)).data ∧
    a.flightKey.data ≤ b.flightKey.data)

instance (md5hex : String → String) (seed : String) : DecidableRel (serverRankLe md5hex seed) :=
  fun a b => inferInstanceAs
    (Decidable ((md5hex (serverHashInput a.flightKey seed)).data < (md5hex (serverHashInput b.flightKey seed)).data ∨
      ((md5hex (serverHashInput a.flightKey seed)).data = (md5hex (serverHashInput b.flightKey seed)).data ∧
        a.flightKey.data ≤ b.flightKey.data)))

/-- The server's per-category ranking (the `row_number() over (... order
by md5(...), flight_key)` window read as a sort). -/
def serverRank (md5hex : String → String) (seed : String) (fs : List Flight) : List Flight :=
  fs.insertionSort (serverRankLe md5hex seed)

/-- The client's comparator from `buildGuestAutoAssignment`: ascending
by `hashString`, ties by `localeCompare` on the flight key. -/
def clientRankLe (seed : String) (a b : Flight) : Prop :=
  hashString (clientHashInput a.flightKey seed) < hashString (clientHashInput b.flightKey seed) ∨
  (hashString (clientHashInput a.flightKey seed) = hashString (clientHashInput b.flightKey seed) ∧
    a.flightKey.data ≤ b.flightKey.data)

instance (seed : String) : DecidableRel (clientRankLe seed) :=
  fun a b => inferInstanceAs
    (Decidable (hashString (clientHashInput a.flightKey seed) < hashString (clientHashInput b.flightKey seed) ∨
      (hashString (clientHashInput a.flightKey seed) = hashString (clientHashInput b.flightKey seed) ∧
        a.flightKey.data ≤ b.flightKey.data)))

/-- The client's ranking (`[...categoryFlights].sort(comparator)`; JS
sort is stable, so it agrees with the stable `insertionSort`). -/
def clientRank (seed : String) (fs : List Flight) : List Flight :=
  fs.insertionSort (clientRankLe seed)

/-! ## The auto-assignment engine `run_auto_assignment` -/

/-- The typed failures of `run_auto_assignment` (its `raise exception`
messages); `TriggerFailure` stands for an aborting trigger exception
during the bulk update (provably unreachable). -/
inductive RunError
  | Unauthorized
  | InvalidWorkDate
  | DatasetNotFound
  | TriggerFailure
deriving DecidableEq

/-- The row returned by `run_auto_assignment`. -/
structure RunResult where
  runId : String
  seed : String
  workDate : String
  updatedFlights : Nat
  summary : List SummaryEntry
deriving DecidableEq

/-- Ambient values of one invocation: authorization verdict, actor
identity, clock, freshly generated seed and run id, and the external
md5 primitive. -/
structure RunEnv where
  allowed : Bool
  userEmail : String
  userId : String
  now : String
  seed : String
  runId : String
  md5hex : String → String

/-- Models `coalesce(ct.target_percent, 0)` through the left join on
`category_targets`. -/
def targetFor (st : DBState) (ds cat : String) : ℚ :=
  match st.targets.find? (fun r => r.datasetId = ds ∧ r.category = cat) with
  | some r => r.targetPercent
  | none => 0

/-- The WHERE clause of `flights_day`: same dataset and the flight's raw
`fecha` normalizes to the canonical work date. -/
def flightSelected (ds : String) (wd : CivilDate) (f : Flight) : Bool :=
  f.datasetId = ds ∧ parse_work_date f.fecha = some wd

/-- The flights in scope of one run. -/
def selectedFlights (st : DBState) (ds : String) (wd : CivilDate) : List Flight :=
  st.flights.filter (flightSelected ds wd)

/-- The flights of one category within a selection (the window
partition). -/
def categoryGroup (fs : List Flight) (c : String) : List Flight :=
  fs.filter (fun f => f.categoriaClasificacion = c)

/-- The categories present in a selection. -/
def runCategories (fs : List Flight) : List String :=
  (fs.map (fun f => f.categoriaClasificacion)).dedup

/-- Category names in ascending text order (the summary's
`order by sr.category`). -/
def sortedCategories (cs : List String) : List String :=
  cs.insertionSort (fun a b => a.data ≤ b.data)

/-- The flights of one ranked category group that get `ATENDER`: the
first `required_count` in rank order (`category_rank <= required_count`). -/
def categoryAttend (md5hex : String → String) (seed : String)
    (g : List Flight) (req : Nat) : List Flight :=
  (serverRank md5hex seed g).take req

/-- The SET list of the bulk update: decide the flag from the flight's
category rank and overwrite the five `service_flag*` columns. -/
def assignFlag (env : RunEnv) (st : DBState) (ds : String) (wd : CivilDate)
    (f : Flight) : Flight :=
  let g := categoryGroup (selectedFlights st ds wd) f.categoriaClasificacion
  let req := requiredCount g.length (targetFor st ds f.categoriaClasificacion)
  { f with
    serviceFlag := some (if f ∈ categoryAttend env.md5hex env.seed g req then .ATENDER else .NO_ATENDER),
    serviceFlagSource := some .auto,
    serviceFlagUpdatedAt := some env.now,
    serviceFlagUpdatedByEmail := some env.userEmail,
    serviceFlagRunId := some env.runId }

/-- One summary row (`summary_rows`): the per-category aggregates, with
`assigned_count` the number of rows actually labelled ATENDER. -/
def summaryEntryFor (env : RunEnv) (st : DBState) (ds : String) (wd : CivilDate)
    (c : String) : SummaryEntry :=
  let g := categoryGroup (selectedFlights st ds wd) c
  let pct := targetFor st ds c
  let req := requiredCount g.length pct
  { category := c, total := g.length, targetPercent := pct, requiredCount := req,
    assignedCount := (g.filter (fun f => f ∈ categoryAttend env.md5hex env.seed g req)).length }

/-- The summary (`summary_json`): one entry per category, ascending by
category name. -/
def runSummary (env : RunEnv) (st : DBState) (ds : String) (wd : CivilDate) :
    List SummaryEntry :=
  (sortedCategories (runCategories (selectedFlights st ds wd))).map
    (summaryEntryFor env st ds wd)

/-- Models `public.run_auto_assignment(p_dataset_id, p_work_date)`:
check authorization, normalize the work date, check the dataset, relabel
every selected flight through the trigger, insert the run record (whose
`work_date` is the canonical ISO text `v_work_date_iso`) and return the
result row. On any failure the transaction leaves the state unchanged. -/
def run_auto_assignment (env : RunEnv) (datasetId rawWorkDate : String)
    (st : DBState) : DBState × Except RunError RunResult :=
  if env.allowed = false then
    (st, .error .Unauthorized)
  else
    match parse_work_date rawWorkDate with
    | none => (st, .error .InvalidWorkDate)
    | some wd =>
      if datasetId ∈ st.datasets then
        match updateFlightsList env.userEmail env.now (flightSelected datasetId wd)
            (assignFlag env st datasetId wd) st.flights with
        | .error _ => (st, .error .TriggerFailure)
        | .ok fs' =>
          let iso := civilToIso wd
          let summary := runSummary env st datasetId wd
          let updatedCount := (selectedFlights st datasetId wd).length
          let run : AssignmentRun :=
            { id := env.runId, datasetId := datasetId, workDate := iso,
              seed := env.seed, summary := summary,
              updatedFlights := updatedCount, createdBy := env.userId }
          ({ st with flights := fs', runs := st.runs ++ [run] },
           .ok { runId := env.runId, seed := env.seed, workDate := iso,
                 updatedFlights := updatedCount, summary := summary })
      else
        (st, .error .DatasetNotFound)

/-- The effective per-row action of the bulk update (SET list followed
by the trigger), as a total function. -/
def runRowFn (env : RunEnv) (st : DBState) (ds : String) (wd : CivilDate)
    (f : Flight) : Flight :=
  if flightSelected ds wd f then
    triggerUpdateT env.userEmail env.now f (assignFlag env st ds wd f)
  else
    f

/-! ## The client-side mirror `buildGuestAutoAssignment` -/

/-- JS numbers as the client handles them in `clampPercent`: `none`
models a non-finite value (`NaN`/`±Infinity`). -/
def JSNum : Type := Option ℚ

/-- Models `Number(value.toFixed(2))`: rounding to two decimals. -/
def roundTo2 (q : ℚ) : ℚ :=
  (round (q * 100) : ℤ) / 100

/-- The client's `clampPercent`: non-finite values collapse to 0, finite
values are rounded to two decimals and clamped into `[0, 100]`. -/
def clampPercent : JSNum → ℚ
  | none => 0
  | some v => max 0 (min 100 (roundTo2 v))

/-- The target the guest engine uses for a category:
`clampPercent(targets[category] ?? DEFAULT_TARGETS[category] ?? 0)`.
`targets`/`defaults` map a category to `none` when the record lacks the
key (JS `undefined`, caught by `??`). -/
def guestTargetPercent (targets defaults : String → Option JSNum) (c : String) : ℚ :=
  clampPercent ((targets c).getD ((defaults c).getD (some 0)))

/-- Scale the positive fraction `a / b` into `[2 ^ 52, 2 ^ 53)` by exact
binary shifts, tracking the exponent; the fuel covers the whole finite
binary64 range. -/
def normScale : Nat → Nat → Nat → Int → Nat × Nat × Int
  | 0, a, b, e => (a, b, e)
  | fuel + 1, a, b, e =>
    if a < 2 ^ 52 * b then normScale fuel (2 * a) b (e - 1)
    else if 2 ^ 53 * b ≤ a then normScale fuel a (2 * b) (e + 1)
    else (a, b, e)

/-- Round the nonnegative fraction `a / b` to the nearest IEEE-754
binary64 value, ties to even, returned as a mantissa/exponent pair
`(m, e)` denoting `m * 2 ^ e` (normal range, which covers every value
the client's quota computation can meet). -/
def roundPos64 (a b : Nat) : Int × Int :=
  if a = 0 then (0, 0)
  else
    let n := normScale 4400 a b 0
    let q := n.1 / n.2.1
    let r := n.1 % n.2.1
    let m := if 2 * r < n.2.1 then q
      else if n.2.1 < 2 * r then q + 1
      else if q % 2 = 0 then q else q + 1
    if m = 2 ^ 53 then ((2 ^ 52 : Int), n.2.2 + 1) else ((m : Int), n.2.2)

/-- JS `Math.ceil` on a binary64 value (exact, as the result is an
integer in the safe range here). -/
def ceilB64 (d : Int × Int) : Int :=
  if 0 ≤ d.2 then d.1 * 2 ^ d.2.toNat else ceilDiv d.1 (2 ^ (-d.2).toNat)

/-- The JS product `total * d`: an exact natural total times a
nonnegative binary64 value, rounded to binary64. -/
def mulNatB64 (total : Nat) (d : Int × Int) : Int × Int :=
  if total = 0 ∨ d.1 ≤ 0 then (0, 0)
  else if 0 ≤ d.2 then roundPos64 (total * d.1.toNat * 2 ^ d.2.toNat) 1
  else roundPos64 (total * d.1.toNat) (2 ^ (-d.2).toNat)

/-- The JS quotient `d / 100`, rounded to binary64. -/
def div100B64 (d : Int × Int) : Int × Int :=
  if d.1 ≤ 0 then (0, 0)
  else if 0 ≤ d.2 then roundPos64 (d.1.toNat * 2 ^ d.2.toNat) 100
  else roundPos64 d.1.toNat (100 * 2 ^ (-d.2).toNat)

/-- The binary64 value the client actually holds for a clamped
two-decimal percentage: the double nearest the decimal value. -/
def pctB64 (q : ℚ) : Int × Int :=
  if q ≤ 0 then (0, 0) else roundPos64 q.num.toNat q.den

/-- The client's quota `Math.min(total, Math.ceil((total*targetPercent)/100))`,
evaluated in IEEE-754 binary64 arithmetic exactly as the JS engine
evaluates it. -/
def clientMinimumRequired (total : Nat) (targetPercent : Int × Int) : Nat :=
  min total (Int.toNat (ceilB64 (div100B64 (mulNatB64 total targetPercent))))

/-- The id set the guest engine labels ATENDER: per category, the first
`minimumRequired` flights of the ranked group. -/
def guestAttendIds (targets defaults : String → Option JSNum) (seed : String)
    (dayFlights : List Flight) : List String :=
  (runCategories dayFlights).flatMap fun c =>
    let g := categoryGroup dayFlights c
    let req := clientMinimumRequired g.length (pctB64 (guestTargetPercent targets defaults c))
    ((clientRank seed g).take req).map (fun f => f.id)

/-- Models `buildGuestAutoAssignment` (flights relabelling and updated
count; the cosmetic `summaryLines` strings are not modelled): filter the
flights of the work day, rank per category, collect the ATENDER ids and
relabel every day flight. -/
def buildGuestAutoAssignment (targets defaults : String → Option JSNum)
    (seed runId timestamp : String) (flights : List Flight)
    (workDateIso : String) : List Flight × Nat :=
  let dayFlights := flights.filter (fun f => parseCsvDateToIso f.fecha = workDateIso)
  let attendIds := guestAttendIds targets defaults seed dayFlights
  (flights.map fun f =>
    if parseCsvDateToIso f.fecha = workDateIso then
      { f with
        serviceFlag := some (if f.id ∈ attendIds then .ATENDER else .NO_ATENDER),
        serviceFlagSource := some .auto,
        serviceFlagUpdatedAt := some timestamp,
        serviceFlagUpdatedByEmail := some "guest-test",
        serviceFlagRunId := some runId }
    else
      f,
   dayFlights.length)

/-- The run record inserted by a successful execution. -/
def runRecord (env : RunEnv) (st : DBState) (ds : String) (wd : CivilDate) :
    AssignmentRun :=
  { id := env.runId, datasetId := ds, workDate := civilToIso wd,
    seed := env.seed, summary := runSummary env st ds wd,
    updatedFlights := (selectedFlights st ds wd).length, createdBy := env.userId }

/-- The `category_targets_range` CHECK constraint
(`target_percent >= 0 and target_percent <= 100`). -/
def TargetsInRange (st : DBState) : Prop :=
  ∀ r ∈ st.targets, 0 ≤ r.targetPercent ∧ r.targetPercent ≤ 100

/-! ## Shared lemmas -/

/-- Congruence for `orderedInsert` under pointwise-equivalent relations
(with possibly different decidability instances). -/
theorem orderedInsert_congr {α : Type} {r s : α → α → Prop}
    [DecidableRel r] [DecidableRel s] (h : ∀ a b, r a b ↔ s a b) (a : α) :
    ∀ l : List α, l.orderedInsert r a = l.orderedInsert s a := by
  intro l
  induction l with
  | nil => rfl
  | cons b l ih =>
    by_cases hr : r a b
    · rw [List.orderedInsert, List.orderedInsert, if_pos hr, if_pos ((h a b).mp hr)]
    · rw [List.orderedInsert, List.orderedInsert, if_neg hr,
        if_neg (fun hs => hr ((h a b).mpr hs)), ih]

/-- Congruence for `insertionSort` under pointwise-equivalent relations. -/
theorem insertionSort_congr {α : Type} {r s : α → α → Prop}
    [DecidableRel r] [DecidableRel s] (h : ∀ a b, r a b ↔ s a b) :
    ∀ l : List α, l.insertionSort r = l.insertionSort s := by
  intro l
  induction l with
  | nil => rfl
  | cons a l ih =>
    rw [List.insertionSort, List.insertionSort, ih, orderedInsert_congr h]

/-- The BEFORE UPDATE trigger cannot raise when the SET list leaves
`operated` unchanged. -/
theorem triggerUpdate_ok_of_operated_eq (ce now : String) (old new : Flight)
    (h : new.operated = old.operated) :
    triggerUpdate ce now old new = .ok (triggerUpdateT ce now old new) := by
  have herr : ∀ e, triggerUpdate ce now old new ≠ .error e := by
    intro e hctr
    unfold triggerUpdate at hctr
    split_ifs at hctr with h1 h2 h3
    all_goals simp_all
  cases htu : triggerUpdate ce now old new with
  | error e => exact absurd htu (herr e)
  | ok r => unfold triggerUpdateT; rw [htu]

/-- A bulk UPDATE whose SET list preserves `operated` succeeds and acts
as a pointwise map over the table. -/
theorem updateFlightsList_ok (ce now : String) (cond : Flight → Bool)
    (set : Flight → Flight) (fs : List Flight)
    (h : ∀ f ∈ fs, cond f = true → (set f).operated = f.operated) :
    updateFlightsList ce now cond set fs =
      .ok (fs.map fun f => if cond f then triggerUpdateT ce now f (set f) else f) := by
  induction fs with
  | nil => rfl
  | cons f fs ih =>
    have hih := ih (fun g hg hcg => h g (List.mem_cons_of_mem _ hg) hcg)
    by_cases hc : cond f = true
    · have hok := triggerUpdate_ok_of_operated_eq ce now f (set f)
        (h f (List.mem_cons_self _ _) hc)
      unfold updateFlightsList
      simp [hc, hok, hih]
    · unfold updateFlightsList
      simp [hc, hih]

/-- The SET list of the engine's bulk update leaves `operated` alone. -/
theorem assignFlag_operated (env : RunEnv) (st : DBState) (ds : String)
    (wd : CivilDate) (f : Flight) : (assignFlag env st ds wd f).operated = f.operated :=
  rfl

/-- Characterization of a successful `run_auto_assignment`: the flights
are rewritten pointwise by `runRowFn`, exactly one run record is
appended, and the returned row carries the canonical ISO date, the seed
and the summary. -/
theorem run_auto_assignment_success (env : RunEnv) (ds raw : String)
    (st : DBState) (wd : CivilDate) (hA : env.allowed = true)
    (hP : parse_work_date raw = some wd) (hD : ds ∈ st.datasets) :
    run_auto_assignment env ds raw st =
      ({ st with flights := st.flights.map (runRowFn env st ds wd),
                 runs := st.runs ++ [runRecord env st ds wd] },
       .ok { runId := env.runId, seed := env.seed, workDate := civilToIso wd,
             updatedFlights := (selectedFlights st ds wd).length,
             summary := runSummary env st ds wd }) := by
  have hupd := updateFlightsList_ok env.userEmail env.now
    (flightSelected ds wd) (assignFlag env st ds wd) st.flights
    (fun f _ _ => assignFlag_operated env st ds wd f)
  unfold run_auto_assignment
  rw [hA, hP]
  simp only [Bool.true_eq_false, if_false, hD, if_pos, hupd]
  rfl

/-- Identification of the executable quota with its ceiling reading:
`requiredCountZ total pct = min total ⌈total * pct / 100⌉`. -/
theorem requiredCountZ_eq_ceil (total : ℤ) (pct : ℚ) :
    requiredCountZ total pct = min total ⌈(total : ℚ) * pct / 100⌉ := by
  unfold requiredCountZ ceilDiv
  congr 1
  have hd : (0 : ℤ) ≤ 100 * (pct.den : ℤ) := by positivity
  rw [Int.fdiv_eq_ediv _ hd]
  have h1 : (100 * (pct.den : ℤ)) = ((100 * pct.den : ℕ) : ℤ) := by push_cast; ring
  rw [h1, show (-(total * pct.num)) / ((100 * pct.den : ℕ) : ℤ) =
      ⌊((-(total * pct.num) : ℤ) : ℚ) / ((100 * pct.den : ℕ) : ℚ)⌋ from
    (Rat.floor_intCast_div_natCast _ _).symm]
  have hden : ((pct.den : ℚ)) ≠ 0 := Nat.cast_ne_zero.mpr pct.den_nz
  have h2 : ((-(total * pct.num) : ℤ) : ℚ) / ((100 * pct.den : ℕ) : ℚ) =
      -((total : ℚ) * pct / 100) := by
    rw [show ((total : ℚ) * pct) = (total : ℚ) * ((pct.num : ℚ) / (pct.den : ℚ)) from by
      rw [Rat.num_div_den]]
    push_cast
    rw [← mul_div_assoc, div_div, neg_div, mul_comm ((pct.den : ℚ)) 100]
  rw [h2, Int.floor_neg, neg_neg]

/-- C4: for every `total ≥ 0` and `0 ≤ targetPercent ≤ 100` the quota is
`min(total, ceil(total * targetPercent / 100))`, lies in `[0, total]`,
vanishes only when the percent or the total is zero, and is monotone
non-decreasing in the percent. -/
theorem C4_quota (total : ℤ) (pct : ℚ) (h0 : 0 ≤ total) (hp0 : 0 ≤ pct)
    (_hp1 : pct ≤ 100) :
    requiredCountZ total pct = min total ⌈(total : ℚ) * pct / 100⌉ ∧
    0 ≤ requiredCountZ total pct ∧
    requiredCountZ total pct ≤ total ∧
    (requiredCountZ total pct = 0 → pct = 0 ∨ total = 0) ∧
    (∀ pct', pct ≤ pct' → requiredCountZ total pct ≤ requiredCountZ total pct') := by
  have h0q : (0 : ℚ) ≤ (total : ℚ) := by exact_mod_cast h0
  refine ⟨requiredCountZ_eq_ceil total pct, ?_, ?_, ?_, ?_⟩
  · rw [requiredCountZ_eq_ceil]
    exact le_min h0 (Int.ceil_nonneg (div_nonneg (mul_nonneg h0q hp0) (by norm_num)))
  · rw [requiredCountZ_eq_ceil]
    exact min_le_left _ _
  · intro hz
    by_contra hne
    push_neg at hne
    obtain ⟨hp, ht⟩ := hne
    have hppos : 0 < pct := lt_of_le_of_ne hp0 (Ne.symm hp)
    have htpos : 0 < total := lt_of_le_of_ne h0 (Ne.symm ht)
    have harg : 0 < (total : ℚ) * pct / 100 :=
      div_pos (mul_pos (by exact_mod_cast htpos) hppos) (by norm_num)
    have : 0 < requiredCountZ total pct := by
      rw [requiredCountZ_eq_ceil]
      exact lt_min htpos (Int.ceil_pos.mpr harg)
    omega
  · intro pct' hle
    rw [requiredCountZ_eq_ceil, requiredCountZ_eq_ceil]
    refine min_le_min le_rfl (Int.ceil_le_ceil ?_)
    gcongr

/-- C4 witness at `total = 10`, `targetPercent = 35`. -/
theorem C4_quota_witness :
    requiredCountZ 10 35 = min 10 ⌈((10 : ℤ) : ℚ) * 35 / 100⌉ ∧
    0 ≤ requiredCountZ 10 35 ∧
    requiredCountZ 10 35 ≤ 10 ∧
    (requiredCountZ 10 35 = 0 → (35 : ℚ) = 0 ∨ (10 : ℤ) = 0) ∧
    (∀ pct', 35 ≤ pct' → requiredCountZ 10 35 ≤ requiredCountZ 10 pct') :=
  C4_quota 10 35 (by decide) (by decide) (by decide)

/-- C7: the preconditions are checked in order with the first failure
winning (`Unauthorized`, then `InvalidWorkDate`, then `DatasetNotFound`),
and every failure leaves the state untouched: no flight is modified and
no run record is inserted. -/
theorem C7_precondition_order (env : RunEnv) (ds raw : String) (st : DBState) :
    (env.allowed = false → run_auto_assignment env ds raw st = (st, .error .Unauthorized)) ∧
    (env.allowed = true → parse_work_date raw = none →
      run_auto_assignment env ds raw st = (st, .error .InvalidWorkDate)) ∧
    (∀ wd, env.allowed = true → parse_work_date raw = some wd → ds ∉ st.datasets →
      run_auto_assignment env ds raw st = (st, .error .DatasetNotFound)) ∧
    (∀ e, (run_auto_assignment env ds raw st).2 = .error e →
      (run_auto_assignment env ds raw st).1 = st) := by
  refine ⟨?_, ?_, ?_, ?_⟩
  · intro hA
    unfold run_auto_assignment
    rw [hA]
    rfl
  · intro hA hP
    unfold run_auto_assignment
    rw [hA, hP]
    rfl
  · intro wd hA hP hD
    unfold run_auto_assignment
    rw [hA, hP]
    simp [hD]
  · intro e
    unfold run_auto_assignment
    rcases hA : env.allowed with _ | _
    · intro _
      rfl
    · rcases hP : parse_work_date raw with _ | wd
      · intro _
        rfl
      · by_cases hD : ds ∈ st.datasets
        · rcases hU : updateFlightsList env.userEmail env.now (flightSelected ds wd)
            (assignFlag env st ds wd) st.flights with e' | fs'
          · simp [hD, hU]
          · simp [hD, hU]
        · simp [hD]

/-- C7 witness: an unauthorized call fails with `Unauthorized` and
changes nothing. -/
theorem C7_precondition_order_witness :
    run_auto_assignment ⟨false, "op@x.com", "uid-1", "t0", "seed1234", "run-1", fun _ => ""⟩
        "d1" "10/03/2025" ⟨["d1"], [], [], []⟩ =
      (⟨["d1"], [], [], []⟩, .error .Unauthorized) :=
  (C7_precondition_order ⟨false, "op@x.com", "uid-1", "t0", "seed1234", "run-1", fun _ => ""⟩
    "d1" "10/03/2025" ⟨["d1"], [], [], []⟩).1 rfl

/-- C6 counterexample: a successful run invoked with the raw work-date
text `"10/03/2025"` persists `workDate = "2025-03-10"` (the canonical
ISO serialization), not the caller-supplied raw text. -/
theorem C6_counterexample :
    ((run_auto_assignment ⟨true, "op@x.com", "uid-1", "t0", "seed1234", "run-1", fun _ => ""⟩
        "d1" "10/03/2025" ⟨["d1"], [], [], []⟩).2 =
      .ok { runId := "run-1", seed := "seed1234", workDate := "2025-03-10",
            updatedFlights := 0, summary := [] }) ∧
    ((run_auto_assignment ⟨true, "op@x.com", "uid-1", "t0", "seed1234", "run-1", fun _ => ""⟩
        "d1" "10/03/2025" ⟨["d1"], [], [], []⟩).1.runs.map (fun r => r.workDate) =
      ["2025-03-10"]) ∧
    "2025-03-10" ≠ "10/03/2025" := by
  decide

/-- C6 amended: a successful `run_auto_assignment` persists, as the run
record's `workDate`, the canonical ISO serialization of the parsed work
date (`v_work_date_iso`), which coincides with the caller-supplied raw
text only when that text was already in zero-padded ISO form. -/
theorem C6_workdate_canonical (env : RunEnv) (ds raw : String) (st : DBState)
    (wd : CivilDate) (hA : env.allowed = true)
    (hP : parse_work_date raw = some wd) (hD : ds ∈ st.datasets) :
    (run_auto_assignment env ds raw st).1.runs =
      st.runs ++ [runRecord env st ds wd] ∧
    (runRecord env st ds wd).workDate = civilToIso wd ∧
    (run_auto_assignment env ds raw st).2 =
      .ok { runId := env.runId, seed := env.seed, workDate := civilToIso wd,
            updatedFlights := (selectedFlights st ds wd).length,
            summary := runSummary env st ds wd } := by
  rw [run_auto_assignment_success env ds raw st wd hA hP hD]
  exact ⟨rfl, rfl, rfl⟩

/-- C6 amended witness: the run of the counterexample scenario persists
exactly the ISO form of `"10/03/2025"`. -/
theorem C6_workdate_canonical_witness :
    (run_auto_assignment ⟨true, "op@x.com", "uid-1", "t0", "seed1234", "run-1", fun _ => ""⟩
        "d1" "10/03/2025" ⟨["d1"], [], [], []⟩).1.runs =
      [] ++ [runRecord ⟨true, "op@x.com", "uid-1", "t0", "seed1234", "run-1", fun _ => ""⟩
        ⟨["d1"], [], [], []⟩ "d1" ⟨2025, 3, 10⟩] :=
  (C6_workdate_canonical ⟨true, "op@x.com", "uid-1", "t0", "seed1234", "run-1", fun _ => ""⟩
    "d1" "10/03/2025" ⟨["d1"], [], [], []⟩ ⟨2025, 3, 10⟩ rfl (by decide) (by decide)).1

/-- C3 counterexample: the two call sites do not hash the same string —
the server hashes `flightKey || '|' || seed` where the claim (and the
client) has `seed + '|' + flightKey`; at the concrete flight key and
seed below the two hash inputs differ. -/
theorem C3_counterexample :
    serverHashInput "AA|1200|IB|0601|5.3" "seed1234" ≠
      clientHashInput "AA|1200|IB|0601|5.3" "seed1234" := by
  decide

/-- The three binary64 roundings in the divergent quota instance are
each the true nearest double: the exponent is pinned and the mantissa
sits strictly within half an ulp of the exact quotient, so the model's
values are the IEEE-754 evaluation of `250 * 64.4 / 100`. -/
theorem clientQuota_divergence_certified :
    ((roundPos64 322 5).2 = -46 ∧
      ((roundPos64 322 5).1 * 5 - 322 * 2 ^ 46).natAbs * 2 < 5) ∧
    ((mulNatB64 250 (roundPos64 322 5)).2 = -39 ∧
      ((mulNatB64 250 (roundPos64 322 5)).1 * 2 ^ 7 -
        250 * (roundPos64 322 5).1).natAbs < 2 ^ 6) ∧
    ((div100B64 (mulNatB64 250 (roundPos64 322 5))).2 = -45 ∧
      ((div100B64 (mulNatB64 250 (roundPos64 322 5))).1 * 100 -
        (mulNatB64 250 (roundPos64 322 5)).1 * 2 ^ 6).natAbs * 2 < 100) := by
  decide

/-- C3 amended: both call sites instantiate the shared ranking
structure — sort ascending by (hash key, flightKey) and label a quota
prefix ATENDER — but they agree on neither ingredient: the hash
computations differ (the server ranks by `md5(flightKey || '|' || seed)`
compared as hex text, the client by a 32-bit polynomial hash of
`seed + '|' + flightKey` compared numerically) and the quota arithmetic
differs (exact `numeric` ceiling on the server against IEEE-754
binary64 evaluation on the client): at `total = 250` and
`targetPercent = 64.4` (whose double is `roundPos64 322 5`) the client
computes 162 where the server computes 161, so for identical inputs the
two need not select the same ATENDER set. -/
theorem C3_shared_algorithm :
    (∀ (md5hex : String → String) (seed : String) (fs : List Flight),
      serverRank md5hex seed fs =
        rankFlights (fun f => (md5hex (serverHashInput f.flightKey seed)).data) fs) ∧
    (∀ (seed : String) (fs : List Flight),
      clientRank seed fs =
        rankFlights (fun f => hashString (clientHashInput f.flightKey seed)) fs) ∧
    clientMinimumRequired 250 (roundPos64 322 5) = 162 ∧
    requiredCount 250 (Rat.mk' 322 5 (by decide) (by decide)) = 161 := by
  refine ⟨fun md5hex seed fs => ?_, fun seed fs => ?_, by decide, by decide⟩
  · exact @insertionSort_congr Flight (serverRankLe md5hex seed)
      (rankLe (fun f => (md5hex (serverHashInput f.flightKey seed)).data)) _ _
      (fun a b => Iff.rfl) fs
  · exact @insertionSort_congr Flight (clientRankLe seed)
      (rankLe (fun f => hashString (clientHashInput f.flightKey seed))) _ _
      (fun a b => Iff.rfl) fs

/-! ## Order lemmas for the ranking relation -/

/-- Totality of the ranking preorder. -/
theorem rankLe_total {K : Type} [LinearOrder K] (hkey : Flight → K) :
    ∀ a b, rankLe hkey a b ∨ rankLe hkey b a := by
  intro a b
  rcases lt_trichotomy (hkey a) (hkey b) with h | h | h
  · exact Or.inl (Or.inl h)
  · rcases le_total a.flightKey.data b.flightKey.data with hk | hk
    · exact Or.inl (Or.inr ⟨h, hk⟩)
    · exact Or.inr (Or.inr ⟨h.symm, hk⟩)
  · exact Or.inr (Or.inl h)

/-- Transitivity of the ranking preorder. -/
theorem rankLe_trans {K : Type} [LinearOrder K] (hkey : Flight → K) :
    ∀ a b c, rankLe hkey a b → rankLe hkey b c → rankLe hkey a c := by
  rintro a b c (h1 | ⟨he1, hk1⟩) (h2 | ⟨he2, hk2⟩)
  · exact Or.inl (h1.trans h2)
  · exact Or.inl (he2 ▸ h1)
  · exact Or.inl (he1 ▸ h2)
  · exact Or.inr ⟨he1.trans he2, hk1.trans hk2⟩

/-- Strings with equal character data are equal. -/
theorem stringDataInj {s t : String} (h : s.data = t.data) : s = t := by
  obtain ⟨ds⟩ := s
  obtain ⟨dt⟩ := t
  exact congrArg String.mk (by simpa using h)

/-- With distinct flight keys, a non-strict comparison is strict. -/
theorem rankLt_of_rankLe_of_ne {K : Type} [LinearOrder K] (hkey : Flight → K)
    {a b : Flight} (h : rankLe hkey a b) (hne : a.flightKey ≠ b.flightKey) :
    rankLt hkey a b := by
  rcases h with h | ⟨he, hk⟩
  · exact Or.inl h
  · exact Or.inr ⟨he, lt_of_le_of_ne hk (fun hd => hne (stringDataInj hd))⟩

/-- The strict ranking order is asymmetric. -/
theorem rankLt_asymm {K : Type} [LinearOrder K] (hkey : Flight → K)
    {a b : Flight} (h1 : rankLt hkey a b) (h2 : rankLt hkey b a) : False := by
  rcases h1 with h1 | ⟨he1, hk1⟩ <;> rcases h2 with h2 | ⟨he2, hk2⟩
  · exact absurd h2 (lt_asymm h1)
  · exact absurd (he2 ▸ h1) (lt_irrefl _)
  · exact absurd (he1 ▸ h2) (lt_irrefl _)
  · exact absurd hk2 (lt_asymm hk1)

instance {K : Type} [LinearOrder K] (hkey : Flight → K) :
    IsTotal Flight (rankLe hkey) :=
  ⟨rankLe_total hkey⟩

instance {K : Type} [LinearOrder K] (hkey : Flight → K) :
    IsTrans Flight (rankLe hkey) :=
  ⟨fun a b c => rankLe_trans hkey a b c⟩

instance {K : Type} [LinearOrder K] (hkey : Flight → K) :
    IsAntisymm Flight (rankLt hkey) :=
  ⟨fun _ _ h1 h2 => (rankLt_asymm hkey h1 h2).elim⟩

/-- `rankFlights` permutes its input. -/
theorem rankFlights_perm {K : Type} [LinearOrder K] (hkey : Flight → K)
    (fs : List Flight) : (rankFlights hkey fs).Perm fs :=
  List.perm_insertionSort _ _

/-- `rankFlights` sorts its input under the ranking preorder. -/
theorem rankFlights_sorted_le {K : Type} [LinearOrder K] (hkey : Flight → K)
    (fs : List Flight) : List.Sorted (rankLe hkey) (rankFlights hkey fs) :=
  List.sorted_insertionSort _ _

/-- With pairwise-distinct flight keys the output of `rankFlights` is
strictly sorted: no ties survive. -/
theorem rankFlights_sorted_lt {K : Type} [LinearOrder K] (hkey : Flight → K)
    (fs : List Flight) (h : (fs.map (fun f => f.flightKey)).Nodup) :
    List.Sorted (rankLt hkey) (rankFlights hkey fs) := by
  have h1 : fs.Pairwise (fun a b => a.flightKey ≠ b.flightKey) :=
    List.pairwise_map.mp h
  have hp : (rankFlights hkey fs).Pairwise (fun a b => a.flightKey ≠ b.flightKey) :=
    ((rankFlights_perm hkey fs).pairwise_iff (fun hab => Ne.symm hab)).mpr h1
  exact ((rankFlights_sorted_le hkey fs).and hp).imp
    (fun hab => rankLt_of_rankLe_of_ne hkey hab.1 hab.2)

/-- A strictly sorted permutation of the input is the `rankFlights`
output: the ranking is reproducible from the stored seed. -/
theorem rankFlights_unique {K : Type} [LinearOrder K] (hkey : Flight → K)
    (fs l : List Flight) (h : (fs.map (fun f => f.flightKey)).Nodup)
    (hperm : l.Perm fs) (hsort : List.Sorted (rankLt hkey) l) :
    l = rankFlights hkey fs :=
  List.eq_of_perm_of_sorted (hperm.trans (rankFlights_perm hkey fs).symm)
    hsort (rankFlights_sorted_lt hkey fs h)

/-- With distinct flight keys any two distinct flights are strictly
comparable in exactly one direction. -/
theorem rankLt_trichotomy_of_ne {K : Type} [LinearOrder K] (hkey : Flight → K)
    {a b : Flight} (hne : a.flightKey ≠ b.flightKey) :
    (rankLt hkey a b ∨ rankLt hkey b a) ∧ ¬(rankLt hkey a b ∧ rankLt hkey b a) := by
  constructor
  · rcases rankLe_total hkey a b with h | h
    · exact Or.inl (rankLt_of_rankLe_of_ne hkey h hne)
    · exact Or.inr (rankLt_of_rankLe_of_ne hkey h (Ne.symm hne))
  · rintro ⟨h1, h2⟩
    exact rankLt_asymm hkey h1 h2

/-- C2: on flights with pairwise-distinct `flightKey` values, for every
seed both ranking implementations (client `hashString` comparator and
server md5/text comparator, the latter for an arbitrary md5 primitive)
permute the input into a strictly sorted order under the (hash,
flightKey) comparison — no two distinct flights compare equal — and the
output is deterministic: it is the unique strictly sorted permutation,
so re-invoking on the same input reproduces it exactly. -/
theorem C2_rank_strict_total_deterministic (seed : String) (md5hex : String → String)
    (fs : List Flight) (h : (fs.map (fun f => f.flightKey)).Nodup) :
    ((clientRank seed fs).Perm fs ∧
      List.Sorted (rankLt (fun f => hashString (clientHashInput f.flightKey seed)))
        (clientRank seed fs) ∧
      (∀ l, l.Perm fs →
        List.Sorted (rankLt (fun f => hashString (clientHashInput f.flightKey seed))) l →
        l = clientRank seed fs)) ∧
    ((serverRank md5hex seed fs).Perm fs ∧
      List.Sorted (rankLt (fun f => (md5hex (serverHashInput f.flightKey seed)).data))
        (serverRank md5hex seed fs) ∧
      (∀ l, l.Perm fs →
        List.Sorted (rankLt (fun f => (md5hex (serverHashInput f.flightKey seed)).data)) l →
        l = serverRank md5hex seed fs)) ∧
    (∀ a ∈ fs, ∀ b ∈ fs, a ≠ b →
      ∀ (hkey : Flight → Nat),
        (rankLt hkey a b ∨ rankLt hkey b a) ∧ ¬(rankLt hkey a b ∧ rankLt hkey b a)) := by
  have hcEq : clientRank seed fs =
      rankFlights (fun f => hashString (clientHashInput f.flightKey seed)) fs :=
    @insertionSort_congr Flight (clientRankLe seed)
      (rankLe (fun f => hashString (clientHashInput f.flightKey seed))) _ _
      (fun a b => Iff.rfl) fs
  have hsEq : serverRank md5hex seed fs =
      rankFlights (fun f => (md5hex (serverHashInput f.flightKey seed)).data) fs :=
    @insertionSort_congr Flight (serverRankLe md5hex seed)
      (rankLe (fun f => (md5hex (serverHashInput f.flightKey seed)).data)) _ _
      (fun a b => Iff.rfl) fs
  have hkne : ∀ a ∈ fs, ∀ b ∈ fs, a ≠ b → a.flightKey ≠ b.flightKey := by
    intro a ha b hb hne
    exact (List.pairwise_map.mp h).forall (fun _ _ hxy => Ne.symm hxy) ha hb hne
  refine ⟨⟨?_, ?_, ?_⟩, ⟨?_, ?_, ?_⟩, ?_⟩
  · rw [hcEq]
    exact rankFlights_perm _ fs
  · rw [hcEq]
    exact rankFlights_sorted_lt _ fs h
  · intro l hperm hsort
    rw [hcEq]
    exact rankFlights_unique _ fs l h hperm hsort
  · rw [hsEq]
    exact rankFlights_perm _ fs
  · rw [hsEq]
    exact rankFlights_sorted_lt _ fs h
  · intro l hperm hsort
    rw [hsEq]
    exact rankFlights_unique _ fs l h hperm hsort
  · intro a ha b hb hne hkey
    exact rankLt_trichotomy_of_ne hkey (hkne a ha b hb hne)

/-- C2 witness on two concretely keyed flights. -/
theorem C2_rank_witness :
    (([{ id := "f1", datasetId := "d1", flightKey := "K1",
         categoriaClasificacion := "5.3", fecha := "10/03/2025" },
       { id := "f2", datasetId := "d1", flightKey := "K2",
         categoriaClasificacion := "5.3", fecha := "10/03/2025" }] :
        List Flight).map (fun f => f.flightKey)).Nodup ∧
    (clientRank "s"
      [{ id := "f1", datasetId := "d1", flightKey := "K1",
         categoriaClasificacion := "5.3", fecha := "10/03/2025" },
       { id := "f2", datasetId := "d1", flightKey := "K2",
         categoriaClasificacion := "5.3", fecha := "10/03/2025" }]).Perm
      [{ id := "f1", datasetId := "d1", flightKey := "K1",
         categoriaClasificacion := "5.3", fecha := "10/03/2025" },
       { id := "f2", datasetId := "d1", flightKey := "K2",
         categoriaClasificacion := "5.3", fecha := "10/03/2025" }] :=
  ⟨by decide,
   (C2_rank_strict_total_deterministic "s" (fun _ => "")
     [{ id := "f1", datasetId := "d1", flightKey := "K1",
        categoriaClasificacion := "5.3", fecha := "10/03/2025" },
      { id := "f2", datasetId := "d1", flightKey := "K2",
        categoriaClasificacion := "5.3", fecha := "10/03/2025" }] (by decide)).1.1⟩

/-! ## Counting lemmas for the quota -/

/-- The quota never exceeds the group size. -/
theorem requiredCount_le (n : Nat) (pct : ℚ) : requiredCount n pct ≤ n := by
  unfold requiredCount requiredCountZ
  rcases le_total (n : ℤ) (ceilDiv (n * pct.num) (100 * pct.den)) with h | h
  · rw [min_eq_left h]
    simp
  · rw [min_eq_right h]
    exact Int.toNat_le.mpr h

/-- Counting the complement of a Boolean predicate. -/
theorem countP_not_eq_sub {α : Type} (p : α → Bool) (l : List α) :
    l.countP (fun a => !(p a)) = l.length - l.countP p := by
  induction l with
  | nil => rfl
  | cons a l ih =>
    have hle : l.countP p ≤ l.length := List.countP_le_length p
    rw [List.countP_cons, List.countP_cons, ih, List.length_cons]
    cases hpa : p a with
    | false =>
      simp only [hpa, Bool.not_false, eq_self_iff_true, if_true, Bool.false_eq_true, if_false]
      omega
    | true =>
      simp only [hpa, Bool.not_true, eq_self_iff_true, if_true, Bool.false_eq_true, if_false]
      omega

/-- In a duplicate-free list, membership in the first `req` elements of
a permutation of the list is attained exactly `min req length` times. -/
theorem countP_mem_take_of_perm {α : Type} [DecidableEq α] (l r : List α)
    (hperm : r.Perm l) (hnd : l.Nodup) (req : Nat) :
    l.countP (fun a => decide (a ∈ r.take req)) = min req l.length := by
  have hndr : r.Nodup := hperm.symm.nodup hnd
  have hsplit : r = r.take req ++ r.drop req := (List.take_append_drop req r).symm
  have htake : (r.take req).countP (fun a => decide (a ∈ r.take req)) = (r.take req).length :=
    List.countP_eq_length.mpr (fun a ha => by simpa using ha)
  have hdrop : (r.drop req).countP (fun a => decide (a ∈ r.take req)) = 0 := by
    rw [List.countP_eq_zero]
    intro a ha
    simp only [decide_eq_true_eq]
    intro hmem
    have hnd2 : (r.take req ++ r.drop req).Nodup := by
      rw [List.take_append_drop]
      exact hndr
    exact (List.disjoint_of_nodup_append hnd2) hmem ha
  calc l.countP (fun a => decide (a ∈ r.take req))
      = r.countP (fun a => decide (a ∈ r.take req)) := (hperm.countP_eq _).symm
    _ = (r.take req ++ r.drop req).countP (fun a => decide (a ∈ r.take req)) := by
        rw [← hsplit]
    _ = (r.take req).countP (fun a => decide (a ∈ r.take req)) +
        (r.drop req).countP (fun a => decide (a ∈ r.take req)) := List.countP_append _ _ _
    _ = (r.take req).length := by rw [htake, hdrop, add_zero]
    _ = min req l.length := by rw [List.length_take, hperm.length_eq]

/-! ## Row-level characterization of the bulk update -/

/-- The result of the BEFORE UPDATE trigger when the SET list keeps
`operated` unchanged, by cases on the stored `operated`. -/
theorem triggerUpdateT_of_operated_eq (ce now : String) (old new : Flight)
    (h : new.operated = old.operated) :
    triggerUpdateT ce now old new =
      if old.operated then
        { new with operated := true, operatedAt := old.operatedAt,
                   operatedByEmail := old.operatedByEmail }
      else
        { new with operated := false, operatedAt := none, operatedByEmail := none } := by
  cases hop : old.operated with
  | false =>
    have hno : new.operated = false := by rw [h, hop]
    simp [triggerUpdateT, triggerUpdate, hop, hno]
  | true =>
    have hyes : new.operated = true := by rw [h, hop]
    simp [triggerUpdateT, triggerUpdate, hop, hyes]

/-- Pointwise behaviour of the engine's bulk update: unselected rows are
untouched; selected rows keep every descriptive column and the operated
triple (the latter given the lifecycle invariant) and receive exactly
the five `service_flag*` values of the run, the flag decided by the
rank-quota test. -/
theorem runRowFn_char (env : RunEnv) (st : DBState) (ds : String)
    (wd : CivilDate) (f : Flight) :
    (flightSelected ds wd f = false → runRowFn env st ds wd f = f) ∧
    (flightSelected ds wd f = true →
      (runRowFn env st ds wd f).id = f.id ∧
      (runRowFn env st ds wd f).datasetId = f.datasetId ∧
      (runRowFn env st ds wd f).flightKey = f.flightKey ∧
      (runRowFn env st ds wd f).categoriaClasificacion = f.categoriaClasificacion ∧
      (runRowFn env st ds wd f).tipo = f.tipo ∧
      (runRowFn env st ds wd f).fecha = f.fecha ∧
      (runRowFn env st ds wd f).hora = f.hora ∧
      (runRowFn env st ds wd f).cia = f.cia ∧
      (runRowFn env st ds wd f).dscia = f.dscia ∧
      (runRowFn env st ds wd f).cdocia = f.cdocia ∧
      (runRowFn env st ds wd f).vuelo = f.vuelo ∧
      (runRowFn env st ds wd f).operated = f.operated ∧
      (operatedInv f →
        (runRowFn env st ds wd f).operatedAt = f.operatedAt ∧
        (runRowFn env st ds wd f).operatedByEmail = f.operatedByEmail) ∧
      (runRowFn env st ds wd f).serviceFlag =
        some (if f ∈ categoryAttend env.md5hex env.seed
            (categoryGroup (selectedFlights st ds wd) f.categoriaClasificacion)
            (requiredCount
              (categoryGroup (selectedFlights st ds wd) f.categoriaClasificacion).length
              (targetFor st ds f.categoriaClasificacion))
          then ServiceFlag.ATENDER else ServiceFlag.NO_ATENDER) ∧
      (runRowFn env st ds wd f).serviceFlagSource = some FlagSource.auto ∧
      (runRowFn env st ds wd f).serviceFlagUpdatedAt = some env.now ∧
      (runRowFn env st ds wd f).serviceFlagUpdatedByEmail = some env.userEmail ∧
      (runRowFn env st ds wd f).serviceFlagRunId = some env.runId) := by
  constructor
  · intro hsel
    unfold runRowFn
    rw [hsel]
    rfl
  · intro hsel
    unfold runRowFn
    rw [hsel]
    simp only [if_true]
    rw [triggerUpdateT_of_operated_eq env.userEmail env.now f (assignFlag env st ds wd f) rfl]
    cases hop : f.operated with
    | false =>
      refine ⟨rfl, rfl, rfl, rfl, rfl, rfl, rfl, rfl, rfl, rfl, rfl, by simp [hop], ?_,
        rfl, rfl, rfl, rfl, rfl⟩
      intro hinv
      have := hinv.1 hop
      simp [hop, this.1, this.2]
    | true =>
      exact ⟨rfl, rfl, rfl, rfl, rfl, rfl, rfl, rfl, rfl, rfl, rfl, by simp [hop],
        fun _ => by simp [hop], rfl, rfl, rfl, rfl, rfl⟩

/-- A category group within a selection has no duplicate rows (from the
primary key on `flights.id`). -/
theorem categoryGroup_nodup (st : DBState) (ds : String) (wd : CivilDate)
    (c : String) (hids : (st.flights.map (fun f => f.id)).Nodup) :
    (categoryGroup (selectedFlights st ds wd) c).Nodup := by
  have h1 : st.flights.Nodup := hids.of_map
  exact ((List.filter_sublist _).nodup ((List.filter_sublist _).nodup h1))

/-- Exactly `requiredCount` members of a category group lie in its
ATENDER prefix. -/
theorem attend_count_eq (env : RunEnv) (st : DBState) (ds : String)
    (wd : CivilDate) (c : String)
    (hids : (st.flights.map (fun f => f.id)).Nodup) :
    (categoryGroup (selectedFlights st ds wd) c).countP
      (fun f => decide (f ∈ categoryAttend env.md5hex env.seed
        (categoryGroup (selectedFlights st ds wd) c)
        (requiredCount (categoryGroup (selectedFlights st ds wd) c).length
          (targetFor st ds c)))) =
    requiredCount (categoryGroup (selectedFlights st ds wd) c).length
      (targetFor st ds c) := by
  have hcnt := countP_mem_take_of_perm (categoryGroup (selectedFlights st ds wd) c)
    (serverRank env.md5hex env.seed (categoryGroup (selectedFlights st ds wd) c))
    (List.perm_insertionSort _ _) (categoryGroup_nodup st ds wd c hids)
    (requiredCount (categoryGroup (selectedFlights st ds wd) c).length (targetFor st ds c))
  exact hcnt.trans (min_eq_left (requiredCount_le _ _))

/-- Pointwise value of the ATENDER counting predicate after the bulk
update. -/
theorem rowFn_pred_ATENDER (env : RunEnv) (st : DBState) (ds : String)
    (wd : CivilDate) (c : String) (f : Flight) :
    (decide (flightSelected ds wd (runRowFn env st ds wd f) = true ∧
      (runRowFn env st ds wd f).categoriaClasificacion = c ∧
      (runRowFn env st ds wd f).serviceFlag = some ServiceFlag.ATENDER)) =
    (flightSelected ds wd f && decide (f.categoriaClasificacion = c) &&
      decide (f ∈ categoryAttend env.md5hex env.seed
        (categoryGroup (selectedFlights st ds wd) c)
        (requiredCount (categoryGroup (selectedFlights st ds wd) c).length
          (targetFor st ds c)))) := by
  obtain ⟨hunsel, hsel⟩ := runRowFn_char env st ds wd f
  cases hs : flightSelected ds wd f with
  | false =>
    rw [hunsel hs, hs]
    simp [hs]
  | true =>
    obtain ⟨hid, hds, hfk, hcat, htipo, hfecha, hhora, hcia, hdscia, hcdocia,
      hvuelo, hop, hopm, hflag, hsrc, hupd, hby, hrid⟩ := hsel hs
    have hsel2 : flightSelected ds wd (runRowFn env st ds wd f) = true := by
      unfold flightSelected at hs ⊢
      rw [hds, hfecha]
      exact hs
    by_cases hc : f.categoriaClasificacion = c
    · rw [hc] at hflag
      by_cases hmem : f ∈ categoryAttend env.md5hex env.seed
          (categoryGroup (selectedFlights st ds wd) c)
          (requiredCount (categoryGroup (selectedFlights st ds wd) c).length
            (targetFor st ds c))
      · simp [hsel2, hcat, hc, hflag, hmem]
      · simp [hsel2, hcat, hc, hflag, hmem]
    · simp [hcat, hc]

/-- Pointwise value of the NO_ATENDER counting predicate after the bulk
update. -/
theorem rowFn_pred_NO_ATENDER (env : RunEnv) (st : DBState) (ds : String)
    (wd : CivilDate) (c : String) (f : Flight) :
    (decide (flightSelected ds wd (runRowFn env st ds wd f) = true ∧
      (runRowFn env st ds wd f).categoriaClasificacion = c ∧
      (runRowFn env st ds wd f).serviceFlag = some ServiceFlag.NO_ATENDER)) =
    (flightSelected ds wd f && decide (f.categoriaClasificacion = c) &&
      !(decide (f ∈ categoryAttend env.md5hex env.seed
        (categoryGroup (selectedFlights st ds wd) c)
        (requiredCount (categoryGroup (selectedFlights st ds wd) c).length
          (targetFor st ds c))))) := by
  obtain ⟨hunsel, hsel⟩ := runRowFn_char env st ds wd f
  cases hs : flightSelected ds wd f with
  | false =>
    rw [hunsel hs, hs]
    simp [hs]
  | true =>
    obtain ⟨hid, hds, hfk, hcat, htipo, hfecha, hhora, hcia, hdscia, hcdocia,
      hvuelo, hop, hopm, hflag, hsrc, hupd, hby, hrid⟩ := hsel hs
    have hsel2 : flightSelected ds wd (runRowFn env st ds wd f) = true := by
      unfold flightSelected at hs ⊢
      rw [hds, hfecha]
      exact hs
    by_cases hc : f.categoriaClasificacion = c
    · rw [hc] at hflag
      by_cases hmem : f ∈ categoryAttend env.md5hex env.seed
          (categoryGroup (selectedFlights st ds wd) c)
          (requiredCount (categoryGroup (selectedFlights st ds wd) c).length
            (targetFor st ds c))
      · simp [hsel2, hcat, hc, hflag, hmem]
      · simp [hsel2, hcat, hc, hflag, hmem]
    · simp [hcat, hc]

/-- Counting a predicate over one category of the selection equals a
count over the whole table guarded by selection and category. -/
theorem countP_group_eq (st : DBState) (ds : String) (wd : CivilDate)
    (c : String) (p : Flight → Bool) :
    st.flights.countP
      (fun f => flightSelected ds wd f && (decide (f.categoriaClasificacion = c) && p f)) =
    (categoryGroup (selectedFlights st ds wd) c).countP p := by
  unfold categoryGroup selectedFlights
  rw [List.countP_filter, List.countP_filter]
  congr 1
  funext f
  cases hp : p f
  all_goals cases hs : flightSelected ds wd f
  all_goals cases hc : decide (f.categoriaClasificacion = c)
  all_goals rfl

/-- C1: a successful run returns the summary and, within each category
of the selected flights, labels exactly `requiredCount` flights ATENDER
and the remaining `total - requiredCount` NO_ATENDER; the summary has
exactly one entry per non-empty category, ordered ascending by category
name, with `assignedCount = requiredCount` and the aggregates taken from
the group. -/
theorem C1_counts_and_summary (env : RunEnv) (ds raw : String) (st : DBState)
    (wd : CivilDate) (hA : env.allowed = true)
    (hP : parse_work_date raw = some wd) (hD : ds ∈ st.datasets)
    (hids : (st.flights.map (fun f => f.id)).Nodup) :
    ((run_auto_assignment env ds raw st).2 =
      .ok { runId := env.runId, seed := env.seed, workDate := civilToIso wd,
            updatedFlights := (selectedFlights st ds wd).length,
            summary := runSummary env st ds wd }) ∧
    (∀ c : String,
      (run_auto_assignment env ds raw st).1.flights.countP
          (fun f => decide (flightSelected ds wd f = true ∧
            f.categoriaClasificacion = c ∧ f.serviceFlag = some ServiceFlag.ATENDER)) =
        requiredCount (categoryGroup (selectedFlights st ds wd) c).length
          (targetFor st ds c) ∧
      (run_auto_assignment env ds raw st).1.flights.countP
          (fun f => decide (flightSelected ds wd f = true ∧
            f.categoriaClasificacion = c ∧ f.serviceFlag = some ServiceFlag.NO_ATENDER)) =
        (categoryGroup (selectedFlights st ds wd) c).length -
          requiredCount (categoryGroup (selectedFlights st ds wd) c).length
            (targetFor st ds c)) ∧
    ((runSummary env st ds wd).map (fun e => e.category) =
      sortedCategories (runCategories (selectedFlights st ds wd))) ∧
    List.Sorted (fun a b : String => a.data ≤ b.data)
      ((runSummary env st ds wd).map (fun e => e.category)) ∧
    ((runSummary env st ds wd).map (fun e => e.category)).Nodup ∧
    (∀ c : String, c ∈ (runSummary env st ds wd).map (fun e => e.category) ↔
      categoryGroup (selectedFlights st ds wd) c ≠ []) ∧
    (∀ e ∈ runSummary env st ds wd,
      e.total = (categoryGroup (selectedFlights st ds wd) e.category).length ∧
      e.targetPercent = targetFor st ds e.category ∧
      e.requiredCount = requiredCount e.total e.targetPercent ∧
      e.assignedCount = e.requiredCount) := by
  have hfl : (run_auto_assignment env ds raw st).1.flights =
      st.flights.map (runRowFn env st ds wd) := by
    rw [run_auto_assignment_success env ds raw st wd hA hP hD]
  have hcatsPerm : (sortedCategories (runCategories (selectedFlights st ds wd))).Perm
      (runCategories (selectedFlights st ds wd)) :=
    List.perm_insertionSort _ _
  refine ⟨?_, ?_, ?_, ?_, ?_, ?_, ?_⟩
  · rw [run_auto_assignment_success env ds raw st wd hA hP hD]
  · intro c
    constructor
    · rw [hfl, List.countP_map]
      have hfun : ((fun f => decide (flightSelected ds wd f = true ∧
            f.categoriaClasificacion = c ∧ f.serviceFlag = some ServiceFlag.ATENDER)) ∘
            runRowFn env st ds wd) =
          (fun f => flightSelected ds wd f && (decide (f.categoriaClasificacion = c) &&
            decide (f ∈ categoryAttend env.md5hex env.seed
              (categoryGroup (selectedFlights st ds wd) c)
              (requiredCount (categoryGroup (selectedFlights st ds wd) c).length
                (targetFor st ds c))))) := by
        funext f
        rw [Function.comp_apply, rowFn_pred_ATENDER env st ds wd c f, Bool.and_assoc]
      rw [hfun, countP_group_eq st ds wd c]
      exact attend_count_eq env st ds wd c hids
    · rw [hfl, List.countP_map]
      have hfun : ((fun f => decide (flightSelected ds wd f = true ∧
            f.categoriaClasificacion = c ∧ f.serviceFlag = some ServiceFlag.NO_ATENDER)) ∘
            runRowFn env st ds wd) =
          (fun f => flightSelected ds wd f && (decide (f.categoriaClasificacion = c) &&
            !(decide (f ∈ categoryAttend env.md5hex env.seed
              (categoryGroup (selectedFlights st ds wd) c)
              (requiredCount (categoryGroup (selectedFlights st ds wd) c).length
                (targetFor st ds c)))))) := by
        funext f
        rw [Function.comp_apply, rowFn_pred_NO_ATENDER env st ds wd c f, Bool.and_assoc]
      rw [hfun, countP_group_eq st ds wd c]
      rw [countP_not_eq_sub]
      rw [attend_count_eq env st ds wd c hids]
  · unfold runSummary
    rw [List.map_map]
    exact List.map_id _
  · haveI h1 : IsTotal String (fun a b : String => a.data ≤ b.data) :=
      ⟨fun a b => le_total _ _⟩
    haveI h2 : IsTrans String (fun a b : String => a.data ≤ b.data) :=
      ⟨fun _ _ _ hab hbc => le_trans hab hbc⟩
    unfold runSummary
    rw [List.map_map]
    rw [show ((fun e : SummaryEntry => e.category) ∘ summaryEntryFor env st ds wd) = id from rfl]
    rw [List.map_id]
    exact List.sorted_insertionSort _ _
  · unfold runSummary
    rw [List.map_map]
    rw [show ((fun e : SummaryEntry => e.category) ∘ summaryEntryFor env st ds wd) = id from rfl]
    rw [List.map_id]
    exact hcatsPerm.symm.nodup (List.nodup_dedup _)
  · intro c
    unfold runSummary
    rw [List.map_map]
    rw [show ((fun e : SummaryEntry => e.category) ∘ summaryEntryFor env st ds wd) = id from rfl]
    rw [List.map_id]
    rw [hcatsPerm.mem_iff]
    unfold runCategories
    rw [List.mem_dedup]
    constructor
    · intro hc
      obtain ⟨f, hf, hfc⟩ := List.mem_map.mp hc
      intro hemp
      have : f ∈ categoryGroup (selectedFlights st ds wd) c :=
        List.mem_filter.mpr ⟨hf, by simp [hfc]⟩
      rw [hemp] at this
      exact absurd this (List.not_mem_nil f)
    · intro hne
      obtain ⟨f, hf⟩ := List.exists_mem_of_ne_nil _ hne
      obtain ⟨hfsel, hfc⟩ := List.mem_filter.mp hf
      exact List.mem_map.mpr ⟨f, hfsel, by simpa using hfc⟩
  · intro e he
    obtain ⟨c, _hc, hce⟩ := List.mem_map.mp he
    subst hce
    refine ⟨rfl, rfl, rfl, ?_⟩
    show (List.filter _ _).length = _
    rw [← List.countP_eq_length_filter]
    exact attend_count_eq env st ds wd c hids

/-- C1 witness: one dataset, one flight of category 5.3 on the work
day, target 35 percent. -/
theorem C1_counts_and_summary_witness :
    (run_auto_assignment ⟨true, "op@x.com", "uid-1", "t0", "s1", "run-1", fun _ => ""⟩
        "d1" "10/03/2025"
        ⟨["d1"],
         [{ id := "f1", datasetId := "d1", flightKey := "K1",
            categoriaClasificacion := "5.3", fecha := "10/03/2025" }],
         [⟨"d1", "5.3", 35⟩], []⟩).2 =
      .ok { runId := "run-1", seed := "s1", workDate := civilToIso ⟨2025, 3, 10⟩,
            updatedFlights :=
              (selectedFlights
                ⟨["d1"],
                 [{ id := "f1", datasetId := "d1", flightKey := "K1",
                    categoriaClasificacion := "5.3", fecha := "10/03/2025" }],
                 [⟨"d1", "5.3", 35⟩], []⟩ "d1" ⟨2025, 3, 10⟩).length,
            summary := runSummary ⟨true, "op@x.com", "uid-1", "t0", "s1", "run-1", fun _ => ""⟩
              ⟨["d1"],
               [{ id := "f1", datasetId := "d1", flightKey := "K1",
                  categoriaClasificacion := "5.3", fecha := "10/03/2025" }],
               [⟨"d1", "5.3", 35⟩], []⟩ "d1" ⟨2025, 3, 10⟩ } :=
  (C1_counts_and_summary ⟨true, "op@x.com", "uid-1", "t0", "s1", "run-1", fun _ => ""⟩
    "d1" "10/03/2025"
    ⟨["d1"],
     [{ id := "f1", datasetId := "d1", flightKey := "K1",
        categoriaClasificacion := "5.3", fecha := "10/03/2025" }],
     [⟨"d1", "5.3", 35⟩], []⟩ ⟨2025, 3, 10⟩ rfl (by decide) (by decide) (by decide)).1

/-- C8: a successful run rewrites the table pointwise; rows outside the
dataset or whose normalized date differs from the work date are left
entirely unchanged, and every touched row keeps its descriptive columns
and its operated triple (given the lifecycle invariant) while its five
`service_flag*` columns are overwritten with the run's values,
regardless of any prior manual or auto label. -/
theorem C8_frame_effect (env : RunEnv) (ds raw : String) (st : DBState)
    (wd : CivilDate) (hA : env.allowed = true)
    (hP : parse_work_date raw = some wd) (hD : ds ∈ st.datasets) :
    ((run_auto_assignment env ds raw st).1.flights =
      st.flights.map (runRowFn env st ds wd)) ∧
    (∀ f, flightSelected ds wd f = false → runRowFn env st ds wd f = f) ∧
    (∀ f, flightSelected ds wd f = true →
      (runRowFn env st ds wd f).id = f.id ∧
      (runRowFn env st ds wd f).datasetId = f.datasetId ∧
      (runRowFn env st ds wd f).flightKey = f.flightKey ∧
      (runRowFn env st ds wd f).categoriaClasificacion = f.categoriaClasificacion ∧
      (runRowFn env st ds wd f).tipo = f.tipo ∧
      (runRowFn env st ds wd f).fecha = f.fecha ∧
      (runRowFn env st ds wd f).hora = f.hora ∧
      (runRowFn env st ds wd f).cia = f.cia ∧
      (runRowFn env st ds wd f).dscia = f.dscia ∧
      (runRowFn env st ds wd f).cdocia = f.cdocia ∧
      (runRowFn env st ds wd f).vuelo = f.vuelo ∧
      (runRowFn env st ds wd f).operated = f.operated ∧
      (operatedInv f →
        (runRowFn env st ds wd f).operatedAt = f.operatedAt ∧
        (runRowFn env st ds wd f).operatedByEmail = f.operatedByEmail) ∧
      ((runRowFn env st ds wd f).serviceFlag = some ServiceFlag.ATENDER ∨
        (runRowFn env st ds wd f).serviceFlag = some ServiceFlag.NO_ATENDER) ∧
      (runRowFn env st ds wd f).serviceFlagSource = some FlagSource.auto ∧
      (runRowFn env st ds wd f).serviceFlagUpdatedAt = some env.now ∧
      (runRowFn env st ds wd f).serviceFlagUpdatedByEmail = some env.userEmail ∧
      (runRowFn env st ds wd f).serviceFlagRunId = some env.runId) := by
  refine ⟨?_, ?_, ?_⟩
  · rw [run_auto_assignment_success env ds raw st wd hA hP hD]
  · intro f hf
    exact (runRowFn_char env st ds wd f).1 hf
  · intro f hf
    obtain ⟨hid, hds, hfk, hcat, htipo, hfecha, hhora, hcia, hdscia, hcdocia,
      hvuelo, hop, hopm, hflag, hsrc, hupd, hby, hrid⟩ := (runRowFn_char env st ds wd f).2 hf
    refine ⟨hid, hds, hfk, hcat, htipo, hfecha, hhora, hcia, hdscia, hcdocia,
      hvuelo, hop, hopm, ?_, hsrc, hupd, hby, hrid⟩
    rw [hflag]
    by_cases hmem : f ∈ categoryAttend env.md5hex env.seed
        (categoryGroup (selectedFlights st ds wd) f.categoriaClasificacion)
        (requiredCount (categoryGroup (selectedFlights st ds wd) f.categoriaClasificacion).length
          (targetFor st ds f.categoriaClasificacion))
    · exact Or.inl (by rw [if_pos hmem])
    · exact Or.inr (by rw [if_neg hmem])

/-- C8 witness: a run over a two-flight table touches only the flight of
the work day. -/
theorem C8_frame_effect_witness :
    (run_auto_assignment ⟨true, "op@x.com", "uid-1", "t0", "s1", "run-1", fun _ => ""⟩
        "d1" "10/03/2025"
        ⟨["d1"],
         [{ id := "f1", datasetId := "d1", flightKey := "K1",
            categoriaClasificacion := "5.3", fecha := "10/03/2025" },
          { id := "f2", datasetId := "d1", flightKey := "K2",
            categoriaClasificacion := "5.3", fecha := "11/03/2025" }],
         [], []⟩).1.flights =
      [{ id := "f1", datasetId := "d1", flightKey := "K1",
         categoriaClasificacion := "5.3", fecha := "10/03/2025" },
       { id := "f2", datasetId := "d1", flightKey := "K2",
         categoriaClasificacion := "5.3", fecha := "11/03/2025" }].map
        (runRowFn ⟨true, "op@x.com", "uid-1", "t0", "s1", "run-1", fun _ => ""⟩
          ⟨["d1"],
           [{ id := "f1", datasetId := "d1", flightKey := "K1",
              categoriaClasificacion := "5.3", fecha := "10/03/2025" },
            { id := "f2", datasetId := "d1", flightKey := "K2",
              categoriaClasificacion := "5.3", fecha := "11/03/2025" }],
           [], []⟩ "d1" ⟨2025, 3, 10⟩) :=
  (C8_frame_effect ⟨true, "op@x.com", "uid-1", "t0", "s1", "run-1", fun _ => ""⟩
    "d1" "10/03/2025"
    ⟨["d1"],
     [{ id := "f1", datasetId := "d1", flightKey := "K1",
        categoriaClasificacion := "5.3", fecha := "10/03/2025" },
      { id := "f2", datasetId := "d1", flightKey := "K2",
        categoriaClasificacion := "5.3", fecha := "11/03/2025" }],
     [], []⟩ ⟨2025, 3, 10⟩ rfl (by decide) (by decide)).1

/-! ## Lifecycle lemmas -/

/-- A true→false update is rejected by the trigger. -/
theorem triggerUpdate_illegal (ce now : String) (old new : Flight)
    (h1 : old.operated = true) (h2 : new.operated = false) :
    triggerUpdate ce now old new = .error .IllegalTransition := by
  unfold triggerUpdate
  rw [if_pos ⟨h1, h2⟩]

/-- A statement containing a row the trigger rejects aborts with the
trigger's exception. -/
theorem updateFlightsList_error (ce now : String) (cond : Flight → Bool)
    (set : Flight → Flight) (fs : List Flight) (f : Flight) (hf : f ∈ fs)
    (hc : cond f = true)
    (herr : triggerUpdate ce now f (set f) = .error .IllegalTransition) :
    updateFlightsList ce now cond set fs = .error .IllegalTransition := by
  induction fs with
  | nil => exact absurd hf (List.not_mem_nil f)
  | cons g fs ih =>
    rcases List.mem_cons.mp hf with rfl | hmem
    · unfold updateFlightsList
      rw [if_pos hc, herr]
    · unfold updateFlightsList
      rcases hrow : (if cond g then triggerUpdate ce now g (set g) else .ok g) with e | g'
      · cases e
        rfl
      · rw [ih hmem]

/-- `find?` over rows with duplicate-free ids returns the unique match. -/
theorem find?_eq_of_id (l : List Flight) (hids : (l.map (fun f => f.id)).Nodup)
    (f : Flight) (hf : f ∈ l) (cond : Flight → Bool) (hcf : cond f = true)
    (hid : ∀ g, cond g = true → g.id = f.id) :
    l.find? cond = some f := by
  induction l with
  | nil => exact absurd hf (List.not_mem_nil f)
  | cons g l ih =>
    rcases List.mem_cons.mp hf with rfl | hmem
    · rw [List.find?_cons_of_pos _ hcf]
    · by_cases hcg : cond g = true
      · exfalso
        have hgid : g.id = f.id := hid g hcg
        have h1 : f.id ∈ l.map (fun f => f.id) := List.mem_map.mpr ⟨f, hmem, rfl⟩
        have h2 : g.id ∉ l.map (fun f => f.id) := (List.nodup_cons.mp hids).1
        exact h2 (hgid ▸ h1)
      · rw [List.find?_cons_of_neg _ (by simpa using hcg)]
        exact ih (List.nodup_cons.mp hids).2 hmem

/-- The row written by a winning compare-and-swap. -/
theorem markRowTransform_eq (ce now email : String) (f : Flight)
    (h : f.operated = false) :
    markRowTransform ce now email f =
      { f with operated := true, operatedAt := some now,
               operatedByEmail := some (lowerStr
                 (if isBlankOpt (some (normalizeEmail email)) then ce
                  else normalizeEmail email)) } := by
  unfold markRowTransform triggerUpdateT triggerUpdate markPayload
  simp [h]

/-- The BEFORE UPDATE trigger fills a missing timestamp with `now` on
the false→true transition. -/
theorem triggerUpdate_defaults_now (ce now : String) (old new : Flight)
    (h1 : old.operated = false) (h2 : new.operated = true)
    (h3 : new.operatedAt = none) :
    ∃ r, triggerUpdate ce now old new = .ok r ∧ r.operatedAt = some now := by
  unfold triggerUpdate
  rw [if_neg (by simp [h1]), if_neg (by simp [h1]), if_pos ⟨h1, h2⟩]
  exact ⟨_, rfl, by simp [h3]⟩

/-- C9: the operated lifecycle state machine — the trigger establishes
and preserves the metadata invariant; `markFlightOperated` is a
compare-and-swap whose loser observes `none` and mutates nothing and
whose winner writes a lower-cased operator identity and the timestamp
(defaulted to now by the trigger when missing); re-asserting
`operated = true` preserves the original provenance; and an attempt to
unmark an operated flight fails with `IllegalTransition`, changing no
persisted field. -/
theorem C9_lifecycle (ce now flightId email : String) (st : DBState) :
    (∀ new, operatedInv (triggerInsert ce now new)) ∧
    (∀ old new r, operatedInv old → triggerUpdate ce now old new = .ok r →
      operatedInv r) ∧
    ((∀ f ∈ st.flights, f.id = flightId → f.operated = true) →
      markFlightOperated ce now flightId email st = (st, none)) ∧
    (∀ f, f.operated = false →
      (markRowTransform ce now email f).operated = true ∧
      (markRowTransform ce now email f).operatedAt = some now ∧
      (isBlankOpt (some (normalizeEmail email)) = false →
        (markRowTransform ce now email f).operatedByEmail =
          some (lowerStr (normalizeEmail email)))) ∧
    (∀ f ∈ st.flights, f.id = flightId → f.operated = false →
      (st.flights.map (fun g => g.id)).Nodup →
      (markFlightOperated ce now flightId email st).2 =
        some (markRowTransform ce now email f)) ∧
    (∀ old new, old.operated = false → new.operated = true → new.operatedAt = none →
      ∃ r, triggerUpdate ce now old new = .ok r ∧ r.operatedAt = some now) ∧
    (∀ old new r, old.operated = true → new.operated = true →
      triggerUpdate ce now old new = .ok r →
      r.operatedAt = old.operatedAt ∧ r.operatedByEmail = old.operatedByEmail) ∧
    (∀ (cond : Flight → Bool) (set : Flight → Flight) (f : Flight),
      f ∈ st.flights → cond f = true → f.operated = true → (set f).operated = false →
      updateFlightRows ce now cond set st = .error .IllegalTransition) ∧
    ((∀ f ∈ st.flights, operatedInv f) →
      ∀ f' ∈ (markFlightOperated ce now flightId email st).1.flights, operatedInv f') := by
  refine ⟨?_, ?_, ?_, ?_, ?_, ?_, ?_, ?_, ?_⟩
  · intro new
    unfold triggerInsert operatedInv
    cases hop : new.operated with
    | false => simp [hop]
    | true =>
      cases hat : new.operatedAt with
      | none => simp [hop, hat]
      | some t => simp [hop, hat]
  · intro old new r hinv htu
    cases hold : old.operated with
    | true =>
      cases hnew : new.operated with
      | false =>
        rw [triggerUpdate_illegal ce now old new hold hnew] at htu
        cases htu
      | true =>
        unfold triggerUpdate at htu
        rw [if_neg (by simp [hnew]), if_pos ⟨hold, hnew⟩] at htu
        cases htu
        constructor
        · intro hc
          simp at hc
        · intro _
          exact hinv.2 hold
    | false =>
      cases hnew : new.operated with
      | true =>
        unfold triggerUpdate at htu
        rw [if_neg (by simp [hold]), if_neg (by simp [hold]), if_pos ⟨hold, hnew⟩] at htu
        cases htu
        constructor
        · intro hc
          simp [hnew] at hc
        · intro _
          constructor
          · cases hat : new.operatedAt with
            | none => simp [hat]
            | some t => simp [hat]
          · simp
      | false =>
        unfold triggerUpdate at htu
        rw [if_neg (by simp [hold]), if_neg (by simp [hold]), if_neg (by simp [hnew])] at htu
        cases htu
        constructor
        · intro _
          exact ⟨rfl, rfl⟩
        · intro hc
          simp at hc
  · intro hall
    simp only [markFlightOperated]
    rw [List.find?_eq_none.mpr (fun f hf => by
      simp only [decide_eq_true_eq, not_and]
      intro hcid hopf
      have htrue := hall f hf hcid
      rw [htrue] at hopf
      simp at hopf)]
  · intro f hop
    rw [markRowTransform_eq ce now email f hop]
    refine ⟨rfl, rfl, ?_⟩
    intro hbl
    rw [if_neg (by simp [hbl])]
  · intro f hf hid hop hids
    simp only [markFlightOperated]
    rw [find?_eq_of_id st.flights hids f hf _
      (by simp [hid, hop]) (fun g hg => by
        simp only [decide_eq_true_eq] at hg
        exact hg.1.trans hid.symm)]
  · intro old new h1 h2 h3
    exact triggerUpdate_defaults_now ce now old new h1 h2 h3
  · intro old new r h1 h2 htu
    unfold triggerUpdate at htu
    rw [if_neg (by simp [h2]), if_pos ⟨h1, h2⟩] at htu
    cases htu
    exact ⟨rfl, rfl⟩
  · intro cond set f hf hc hop hsetop
    unfold updateFlightRows
    rw [updateFlightsList_error ce now cond set st.flights f hf hc
      (triggerUpdate_illegal ce now f (set f) hop hsetop)]
  · intro hinv f' hf'
    simp only [markFlightOperated] at hf'
    rcases hfind : st.flights.find?
        (fun f => decide (f.id = flightId ∧ f.operated = false)) with _ | g
    · rw [hfind] at hf'
      exact hinv f' hf'
    · rw [hfind] at hf'
      simp only at hf'
      rcases List.mem_map.mp hf' with ⟨g0, hg0, hg0e⟩
      by_cases hcg : (g0.id = flightId ∧ g0.operated = false)
      · rw [if_pos (by simpa using hcg)] at hg0e
        rw [← hg0e, markRowTransform_eq ce now email g0 hcg.2]
        constructor
        · intro hcontra
          simp at hcontra
        · intro _
          exact ⟨rfl, rfl⟩
      · rw [if_neg (by simpa using hcg)] at hg0e
        rw [← hg0e]
        exact hinv g0 hg0

/-- C9 witness: a concurrent loser's `markFlightOperated` on an
already-operated flight returns `none` and leaves the state unchanged. -/
theorem C9_lifecycle_witness :
    markFlightOperated "op@x.com" "t1" "f1" "Alice@X.com"
      ⟨["d1"],
       [{ id := "f1", datasetId := "d1", flightKey := "K1",
          categoriaClasificacion := "5.3", fecha := "10/03/2025",
          operated := true, operatedAt := some "t0",
          operatedByEmail := some "bob@x.com" }], [], []⟩ =
      (⟨["d1"],
        [{ id := "f1", datasetId := "d1", flightKey := "K1",
           categoriaClasificacion := "5.3", fecha := "10/03/2025",
           operated := true, operatedAt := some "t0",
           operatedByEmail := some "bob@x.com" }], [], []⟩, none) :=
  (C9_lifecycle "op@x.com" "t1" "f1" "Alice@X.com"
    ⟨["d1"],
     [{ id := "f1", datasetId := "d1", flightKey := "K1",
        categoriaClasificacion := "5.3", fecha := "10/03/2025",
        operated := true, operatedAt := some "t0",
        operatedByEmail := some "bob@x.com" }], [], []⟩).2.2.1 (by decide)

/-! ## Target-percent range safety -/

/-- C10: every target percent reaching the quota computation lies in
`[0, 100]` — `clampPercent` maps non-finite input to 0 and clamps finite
input into the range; the guest engine's per-category target is always
clamped; the server's effective target comes from the range-checked
table or defaults to 0; and the quota never exceeds the total. -/
theorem C10_percent_range (st : DBState) (ds : String)
    (hR : TargetsInRange st) :
    (∀ v : JSNum, 0 ≤ clampPercent v ∧ clampPercent v ≤ 100) ∧
    clampPercent none = 0 ∧
    (∀ (targets defaults : String → Option JSNum) (c : String),
      0 ≤ guestTargetPercent targets defaults c ∧
      guestTargetPercent targets defaults c ≤ 100) ∧
    (∀ c : String, 0 ≤ targetFor st ds c ∧ targetFor st ds c ≤ 100) ∧
    (∀ (n : Nat) (pct : ℚ), requiredCount n pct ≤ n) := by
  have hclamp : ∀ v : JSNum, 0 ≤ clampPercent v ∧ clampPercent v ≤ 100 := by
    intro v
    cases v with
    | none => exact ⟨le_refl 0, by norm_num [clampPercent]⟩
    | some q =>
      constructor
      · exact le_max_left 0 _
      · exact max_le (by norm_num) (min_le_left 100 _)
  refine ⟨hclamp, rfl, ?_, ?_, ?_⟩
  · intro targets defaults c
    exact hclamp _
  · intro c
    unfold targetFor
    split
    · rename_i r heq
      exact hR r (List.mem_of_find?_eq_some heq)
    · norm_num
  · intro n pct
    exact requiredCount_le n pct

/-- C10 witness at a one-row target table inside the checked range. -/
theorem C10_percent_range_witness :
    0 ≤ targetFor ⟨["d1"], [], [⟨"d1", "5.3", 35⟩], []⟩ "d1" "5.3" ∧
    targetFor ⟨["d1"], [], [⟨"d1", "5.3", 35⟩], []⟩ "d1" "5.3" ≤ 100 :=
  (C10_percent_range ⟨["d1"], [], [⟨"d1", "5.3", 35⟩], []⟩ "d1"
    (by intro r hr; simp only [List.mem_singleton] at hr; rw [hr]; exact ⟨by norm_num, by norm_num⟩)).2.2.2.1 "5.3"

/-! ## Decimal text lemmas for the date normalizer -/

/-- Digit characters are digits. -/
theorem digitChar_isDigit : ∀ r < 10, (digitChar r).isDigit = true := by
  decide

/-- Code point of a digit character. -/
theorem digitChar_toNat : ∀ r < 10, (digitChar r).toNat = 48 + r := by
  decide

/-- `digitsVal` over a one-longer string. -/
theorem digitsVal_append_single (xs : List Char) (c : Char) :
    digitsVal (xs ++ [c]) = 10 * digitsVal xs + (c.toNat - 48) := by
  unfold digitsVal
  rw [List.foldl_append]
  simp [Nat.mul_comm]

/-- `natDigits` renders only digit characters. -/
theorem natDigits_all_digits : ∀ fuel n, (natDigits fuel n).all Char.isDigit = true := by
  intro fuel
  induction fuel with
  | zero => intro n; rfl
  | succ fuel ih =>
    intro n
    unfold natDigits
    by_cases hn : n = 0
    · rw [if_pos hn]
      rfl
    · rw [if_neg hn, List.all_append, ih (n / 10)]
      simp [digitChar_isDigit (n % 10) (Nat.mod_lt n (by norm_num))]

/-- `natDigits` evaluates back to its argument. -/
theorem digitsVal_natDigits : ∀ fuel n, n ≤ fuel → digitsVal (natDigits fuel n) = n := by
  intro fuel
  induction fuel with
  | zero =>
    intro n hn
    interval_cases n
    rfl
  | succ fuel ih =>
    intro n hn
    unfold natDigits
    by_cases h0 : n = 0
    · rw [if_pos h0, h0]
      rfl
    · rw [if_neg h0, digitsVal_append_single]
      have hdiv : n / 10 ≤ fuel := by
        have := Nat.div_lt_self (Nat.pos_of_ne_zero h0) (by norm_num : 1 < 10)
        omega
      rw [ih (n / 10) hdiv, digitChar_toNat (n % 10) (Nat.mod_lt n (by norm_num))]
      omega

/-- `natToChars` evaluates back to its argument. -/
theorem digitsVal_natToChars (n : Nat) : digitsVal (natToChars n) = n := by
  unfold natToChars
  by_cases h0 : n = 0
  · rw [if_pos h0, h0]
    rfl
  · rw [if_neg h0]
    exact digitsVal_natDigits n n le_rfl

/-- `natToChars` renders only digit characters. -/
theorem natToChars_all_digits (n : Nat) : (natToChars n).all Char.isDigit = true := by
  unfold natToChars
  by_cases h0 : n = 0
  · rw [if_pos h0]
    rfl
  · rw [if_neg h0]
    exact natDigits_all_digits n n

/-- Length bound for `natDigits`. -/
theorem natDigits_length_le : ∀ fuel n k, n < 10 ^ k → (natDigits fuel n).length ≤ k := by
  intro fuel
  induction fuel with
  | zero =>
    intro n k _
    simp [natDigits]
  | succ fuel ih =>
    intro n k hk
    unfold natDigits
    by_cases h0 : n = 0
    · rw [if_pos h0]
      simp
    · rw [if_neg h0]
      rcases k with _ | k

      · exfalso
        simp at hk
        omega
      · have hdiv : n / 10 < 10 ^ k := by
          rw [Nat.div_lt_iff_lt_mul (by norm_num : 0 < 10)]
          calc n < 10 ^ (k + 1) := hk
            _ = 10 ^ k * 10 := by ring
        have := ih (n / 10) k hdiv
        rw [List.length_append]
        simp only [List.length_cons, List.length_nil]
        omega

/-- Length bound for `natToChars`. -/
theorem natToChars_length_le (n k : Nat) (hk : 1 ≤ k) (hn : n < 10 ^ k) :
    (natToChars n).length ≤ k := by
  unfold natToChars
  by_cases h0 : n = 0
  · rw [if_pos h0]
    simpa using hk
  · rw [if_neg h0]
    exact natDigits_length_le n n k hn

/-- `natToChars` is never empty. -/
theorem natToChars_ne_nil (n : Nat) : natToChars n ≠ [] := by
  unfold natToChars
  by_cases h0 : n = 0
  · rw [if_pos h0]
    simp
  · rw [if_neg h0]
    intro hnil
    have := digitsVal_natDigits n n le_rfl
    rw [hnil] at this
    exact h0 (by simpa [digitsVal] using this.symm)

/-- Leading zeros do not change the decimal value. -/
theorem digitsVal_padZ (w : Nat) (cs : List Char) :
    digitsVal (padZ w cs) = digitsVal cs := by
  unfold padZ digitsVal
  rw [List.foldl_append]
  have : ∀ m, List.foldl (fun n c => n * 10 + (c.toNat - 48)) 0 (List.replicate m '0') = 0 := by
    intro m
    induction m with
    | zero => rfl
    | succ m ih => simpa [List.replicate_succ] using ih
  rw [this]

/-- Padding reaches the requested width. -/
theorem padZ_length_of_le (w : Nat) (cs : List Char) (h : cs.length ≤ w) :
    (padZ w cs).length = w := by
  unfold padZ
  rw [List.length_append, List.length_replicate]
  omega

/-- Padding an already-wide string is the identity. -/
theorem padZ_eq_self_of_le (w : Nat) (cs : List Char) (h : w ≤ cs.length) :
    padZ w cs = cs := by
  unfold padZ
  rw [Nat.sub_eq_zero_of_le h]
  rfl

/-- Padding keeps the all-digits property. -/
theorem padZ_all_digits (w : Nat) (cs : List Char) (h : cs.all Char.isDigit = true) :
    (padZ w cs).all Char.isDigit = true := by
  unfold padZ
  rw [List.all_append, h]
  have : ∀ m, (List.replicate m '0').all Char.isDigit = true := by
    intro m
    induction m with
    | zero => rfl
    | succ m ih => simp [List.replicate_succ, ih]
  rw [this]
  rfl

/-- The two-digit rendering: length, digits, value. -/
theorem toChar2_spec (n : Nat) (h : n ≤ 99) :
    (toChar2 n).length = 2 ∧ (toChar2 n).all Char.isDigit = true ∧
    digitsVal (toChar2 n) = n := by
  refine ⟨?_, ?_, ?_⟩
  · exact padZ_length_of_le 2 _ (natToChars_length_le n 2 (by norm_num) (by omega))
  · exact padZ_all_digits 2 _ (natToChars_all_digits n)
  · rw [show toChar2 n = padZ 2 (natToChars n) from rfl, digitsVal_padZ,
      digitsVal_natToChars]

/-- The four-digit rendering: length, digits, value. -/
theorem toChar4_spec (n : Nat) (h : n ≤ 9999) :
    (toChar4 n).length = 4 ∧ (toChar4 n).all Char.isDigit = true ∧
    digitsVal (toChar4 n) = n := by
  refine ⟨?_, ?_, ?_⟩
  · exact padZ_length_of_le 4 _ (natToChars_length_le n 4 (by norm_num) (by omega))
  · exact padZ_all_digits 4 _ (natToChars_all_digits n)
  · rw [show toChar4 n = padZ 4 (natToChars n) from rfl, digitsVal_padZ,
      digitsVal_natToChars]

/-- A digit character is not a separator. -/
theorem isDigit_ne_sep (c : Char) (h : c.isDigit = true) : c ≠ '-' ∧ c ≠ '/' := by
  constructor
  · intro heq
    rw [heq] at h
    exact absurd h (by decide)
  · intro heq
    rw [heq] at h
    exact absurd h (by decide)

/-- A separator does not occur in an all-digits string. -/
theorem sep_not_mem_of_all_digits (cs : List Char) (h : cs.all Char.isDigit = true) :
    '-' ∉ cs ∧ '/' ∉ cs := by
  constructor
  · intro hmem
    exact absurd (List.all_eq_true.mp h _ hmem) (by decide)
  · intro hmem
    exact absurd (List.all_eq_true.mp h _ hmem) (by decide)

/-- `splitOnChar` on a separator-free string. -/
theorem splitOnChar_not_mem (sep : Char) : ∀ cs : List Char, sep ∉ cs →
    splitOnChar sep cs = [cs] := by
  intro cs
  induction cs with
  | nil =>
    intro _
    rfl
  | cons c cs ih =>
    intro h
    have hcne : ¬(c = sep) := fun hc => h (List.mem_cons.mpr (Or.inl hc.symm))
    have htail : sep ∉ cs := fun hmem => h (List.mem_cons_of_mem c hmem)
    simp only [splitOnChar]
    rw [if_neg hcne, ih htail]

/-- `splitOnChar` peels one separator-free prefix. -/
theorem splitOnChar_append (sep : Char) (b : List Char) : ∀ a : List Char, sep ∉ a →
    splitOnChar sep (a ++ sep :: b) = a :: splitOnChar sep b := by
  intro a
  induction a with
  | nil =>
    intro _
    show splitOnChar sep (sep :: b) = [] :: splitOnChar sep b
    simp only [splitOnChar]
    rw [if_pos trivial]
  | cons c a ih =>
    intro h
    have hcne : ¬(c = sep) := fun hc => h (List.mem_cons.mpr (Or.inl hc.symm))
    have htail : sep ∉ a := fun hmem => h (List.mem_cons_of_mem c hmem)
    show splitOnChar sep (c :: (a ++ sep :: b)) = (c :: a) :: splitOnChar sep b
    simp only [splitOnChar]
    rw [if_neg hcne, ih htail]

/-- Characters of a split part come from the split string. -/
theorem mem_of_mem_splitOnChar (sep : Char) :
    ∀ (cs part : List Char), part ∈ splitOnChar sep cs → ∀ c ∈ part, c ∈ cs := by
  intro cs
  induction cs with
  | nil =>
    intro part hpart c hc
    simp only [splitOnChar, List.mem_singleton] at hpart
    rw [hpart] at hc
    exact absurd hc (List.not_mem_nil c)
  | cons d cs ih =>
    intro part hpart c hc
    unfold splitOnChar at hpart
    by_cases hd : d = sep
    · rw [if_pos hd] at hpart
      rcases List.mem_cons.mp hpart with rfl | hmem
      · exact absurd hc (List.not_mem_nil c)
      · exact List.mem_cons_of_mem d (ih part hmem c hc)
    · rw [if_neg hd] at hpart
      rcases hr : splitOnChar sep cs with _ | ⟨p, ps⟩
      · rw [hr] at hpart
        rcases List.mem_cons.mp hpart with rfl | hmem
        · rcases List.mem_cons.mp hc with rfl | hmem2
          · exact List.mem_cons_self c cs
          · exact absurd hmem2 (List.not_mem_nil c)
        · exact absurd hmem (List.not_mem_nil part)
      · rw [hr] at hpart
        rcases List.mem_cons.mp hpart with rfl | hmem
        · rcases List.mem_cons.mp hc with rfl | hmem2
          · exact List.mem_cons_self c cs
          · exact List.mem_cons_of_mem d (ih p (hr ▸ List.mem_cons_self p ps) c hmem2)
        · exact List.mem_cons_of_mem d (ih part (hr ▸ List.mem_cons_of_mem p hmem) c hc)

/-- `dropWhile` on a list whose members all fail the predicate. -/
theorem dropWhile_eq_self_of_all {p : Char → Bool} :
    ∀ cs : List Char, (∀ c ∈ cs, p c = false) → cs.dropWhile p = cs := by
  intro cs h
  cases cs with
  | nil => rfl
  | cons c cs =>
    rw [List.dropWhile_cons_of_neg]
    simp [h c (List.mem_cons_self c cs)]

/-- Trimming a string with no trimmable characters is the identity. -/
theorem trimWith_eq_self (p : Char → Bool) (cs : List Char)
    (h : ∀ c ∈ cs, p c = false) : trimWith p cs = cs := by
  unfold trimWith
  rw [dropWhile_eq_self_of_all cs h]
  rw [dropWhile_eq_self_of_all cs.reverse (fun c hc => h c (List.mem_reverse.mp hc))]
  exact List.reverse_reverse cs

/-- Characters survive trimming only if present initially. -/
theorem mem_trimWith (p : Char → Bool) (cs : List Char) (c : Char)
    (h : c ∈ trimWith p cs) : c ∈ cs := by
  unfold trimWith at h
  rw [List.mem_reverse] at h
  have h1 := (List.dropWhile_sublist _).mem h
  rw [List.mem_reverse] at h1
  exact (List.dropWhile_sublist _).mem h1

/-! ## Shape lemmas for the date normalizer -/

/-- A character of a day-first rendering is a digit or the separator. -/
theorem mem_dmy_render (sep : Char) (dpart mpart ypart : List Char)
    (hd : dpart.all Char.isDigit = true) (hm : mpart.all Char.isDigit = true)
    (hy : ypart.all Char.isDigit = true) (c : Char)
    (hc : c ∈ dpart ++ sep :: (mpart ++ sep :: ypart)) :
    c.isDigit = true ∨ c = sep := by
  rcases List.mem_append.mp hc with h | h
  · exact Or.inl (List.all_eq_true.mp hd _ h)
  · rcases List.mem_cons.mp h with rfl | h2
    · exact Or.inr rfl
    · rcases List.mem_append.mp h2 with h3 | h3
      · exact Or.inl (List.all_eq_true.mp hm _ h3)
      · rcases List.mem_cons.mp h3 with rfl | h4
        · exact Or.inr rfl
        · exact Or.inl (List.all_eq_true.mp hy _ h4)

/-- The ISO shape matcher succeeds on a 4-2-2 digit rendering. -/
theorem isoShape?_render (y4 m2 d2 : List Char)
    (hy4 : y4.length = 4) (hyD : y4.all Char.isDigit = true)
    (hm2 : m2.length = 2) (hmD : m2.all Char.isDigit = true)
    (hd2 : d2.length = 2) (hdD : d2.all Char.isDigit = true) :
    isoShape? (y4 ++ '-' :: (m2 ++ '-' :: d2)) = some (y4, m2, d2) := by
  unfold isoShape?
  rw [splitOnChar_append '-' (m2 ++ '-' :: d2) y4 (sep_not_mem_of_all_digits y4 hyD).1,
    splitOnChar_append '-' d2 m2 (sep_not_mem_of_all_digits m2 hmD).1,
    splitOnChar_not_mem '-' d2 (sep_not_mem_of_all_digits d2 hdD).1]
  exact if_pos ⟨hy4, hm2, hd2, hyD, hmD, hdD⟩

/-- The day-first shape matcher succeeds on a matching rendering. -/
theorem dmyShape?_render (sep : Char) (dpart mpart ypart : List Char)
    (hsep : sep ∉ dpart ∧ sep ∉ mpart ∧ sep ∉ ypart)
    (hdl : dpart.length = 1 ∨ dpart.length = 2) (hdD : dpart.all Char.isDigit = true)
    (hml : mpart.length = 1 ∨ mpart.length = 2) (hmD : mpart.all Char.isDigit = true)
    (hyl : ypart.length = 4) (hyD : ypart.all Char.isDigit = true) :
    dmyShape? sep (dpart ++ sep :: (mpart ++ sep :: ypart)) =
      some (dpart, mpart, ypart) := by
  unfold dmyShape?
  rw [splitOnChar_append sep (mpart ++ sep :: ypart) dpart hsep.1,
    splitOnChar_append sep ypart mpart hsep.2.1,
    splitOnChar_not_mem sep ypart hsep.2.2]
  exact if_pos ⟨hdl, hml, hyl, hdD, hmD, hyD⟩

/-- The ISO shape matcher fails on a string without dashes. -/
theorem isoShape?_no_dash (cs : List Char) (h : '-' ∉ cs) :
    isoShape? cs = none := by
  unfold isoShape?
  rw [splitOnChar_not_mem '-' cs h]

/-- The ISO shape matcher fails on a dash day-first rendering (the year
is not first). -/
theorem isoShape?_dash_dmy (dpart mpart ypart : List Char)
    (hdash : '-' ∉ dpart ∧ '-' ∉ mpart ∧ '-' ∉ ypart)
    (hdl : dpart.length = 1 ∨ dpart.length = 2) :
    isoShape? (dpart ++ '-' :: (mpart ++ '-' :: ypart)) = none := by
  unfold isoShape?
  rw [splitOnChar_append '-' (mpart ++ '-' :: ypart) dpart hdash.1,
    splitOnChar_append '-' ypart mpart hdash.2.1,
    splitOnChar_not_mem '-' ypart hdash.2.2]
  exact if_neg (fun hcond => by
    obtain ⟨h4, _⟩ := hcond
    rcases hdl with h | h
    all_goals omega)

/-- The day-first matcher fails on a string without its separator. -/
theorem dmyShape?_no_sep (sep : Char) (cs : List Char) (h : sep ∉ cs) :
    dmyShape? sep cs = none := by
  unfold dmyShape?
  rw [splitOnChar_not_mem sep cs h]

/-- A successful ISO shape match exhibits a digit character. -/
theorem isoShape?_digit (cs : List Char) (y m d : List Char)
    (h : isoShape? cs = some (y, m, d)) : ∃ c ∈ cs, c.isDigit = true := by
  unfold isoShape? at h
  rcases hsp : splitOnChar '-' cs with _ | ⟨p1, l1⟩
  · rw [hsp] at h
    cases h
  · rcases l1 with _ | ⟨p2, l2⟩
    · rw [hsp] at h
      cases h
    · rcases l2 with _ | ⟨p3, l3⟩
      · rw [hsp] at h
        cases h
      · rcases l3 with _ | ⟨p4, l4⟩
        · rw [hsp] at h
          have h2 : (if p1.length = 4 ∧ p2.length = 2 ∧ p3.length = 2 ∧
              p1.all Char.isDigit = true ∧ p2.all Char.isDigit = true ∧
              p3.all Char.isDigit = true then some (p1, p2, p3) else none) = some (y, m, d) := h
          clear h
          by_cases hcond : p1.length = 4 ∧ p2.length = 2 ∧ p3.length = 2 ∧
              p1.all Char.isDigit = true ∧ p2.all Char.isDigit = true ∧ p3.all Char.isDigit = true
          · rw [if_pos hcond] at h2
            obtain ⟨c, hcy⟩ : ∃ c, c ∈ p1 := by
              rcases p1 with _ | ⟨c, p⟩
              · exfalso
                simp at hcond
              · exact ⟨c, List.mem_cons_self c p⟩
            refine ⟨c, mem_of_mem_splitOnChar '-' cs p1 (hsp ▸ List.mem_cons_self _ _) c hcy, ?_⟩
            exact List.all_eq_true.mp hcond.2.2.2.1 _ hcy
          · rw [if_neg hcond] at h2
            cases h2
        · rw [hsp] at h
          cases h

/-- A successful day-first shape match exhibits a digit character. -/
theorem dmyShape?_digit (sep : Char) (cs : List Char) (d m y : List Char)
    (h : dmyShape? sep cs = some (d, m, y)) : ∃ c ∈ cs, c.isDigit = true := by
  unfold dmyShape? at h
  rcases hsp : splitOnChar sep cs with _ | ⟨p1, l1⟩
  · rw [hsp] at h
    cases h
  · rcases l1 with _ | ⟨p2, l2⟩
    · rw [hsp] at h
      cases h
    · rcases l2 with _ | ⟨p3, l3⟩
      · rw [hsp] at h
        cases h
      · rcases l3 with _ | ⟨p4, l4⟩
        · rw [hsp] at h
          have h2 : (if (p1.length = 1 ∨ p1.length = 2) ∧ (p2.length = 1 ∨ p2.length = 2) ∧
              p3.length = 4 ∧ p1.all Char.isDigit = true ∧ p2.all Char.isDigit = true ∧
              p3.all Char.isDigit = true then some (p1, p2, p3) else none) = some (d, m, y) := h
          clear h
          by_cases hcond : (p1.length = 1 ∨ p1.length = 2) ∧ (p2.length = 1 ∨ p2.length = 2) ∧
              p3.length = 4 ∧ p1.all Char.isDigit = true ∧ p2.all Char.isDigit = true ∧
              p3.all Char.isDigit = true
          · rw [if_pos hcond] at h2
            obtain ⟨c, hcy⟩ : ∃ c, c ∈ p3 := by
              rcases p3 with _ | ⟨c, p⟩
              · exfalso
                have := hcond.2.2.1
                simp at this
              · exact ⟨c, List.mem_cons_self c p⟩
            refine ⟨c, mem_of_mem_splitOnChar sep cs p3
              (hsp ▸ List.mem_cons_of_mem _ (List.mem_cons_of_mem _ (List.mem_cons_self _ _)))
              c hcy, ?_⟩
            exact List.all_eq_true.mp hcond.2.2.2.2.2 _ hcy
          · rw [if_neg hcond] at h2
            cases h2
        · rw [hsp] at h
          cases h

/-- No month has more than 31 days. -/
theorem daysInMonth_le (y m : Nat) : daysInMonth y m ≤ 31 := by
  unfold daysInMonth
  split_ifs
  all_goals omega

/-- Bounds carried by a valid calendar triple. -/
theorem validYMD_bounds (y m d : Nat) (h : validYMD y m d = true) :
    1 ≤ m ∧ m ≤ 12 ∧ 1 ≤ d ∧ d ≤ 31 := by
  unfold validYMD at h
  simp only [Bool.and_eq_true, decide_eq_true_eq] at h
  have := daysInMonth_le y m
  omega

/-- A digit is not a space. -/
theorem isDigit_ne_space (c : Char) (h : c.isDigit = true) : ¬(c = ' ') := by
  intro heq
  rw [heq] at h
  exact absurd h (by decide)

/-- A day-first rendering contains no space, so the SQL trim is the
identity on it. -/
theorem trimSpaces_dmy_render (sep : Char) (hsep : sep = '/' ∨ sep = '-')
    (dpart mpart ypart : List Char)
    (hd : dpart.all Char.isDigit = true) (hm : mpart.all Char.isDigit = true)
    (hy : ypart.all Char.isDigit = true) :
    trimSpaces (dpart ++ sep :: (mpart ++ sep :: ypart)) =
      dpart ++ sep :: (mpart ++ sep :: ypart) := by
  apply trimWith_eq_self
  intro c hc
  rcases mem_dmy_render sep dpart mpart ypart hd hm hy c hc with h | h
  · exact decide_eq_false (isDigit_ne_space c h)
  · rcases hsep with rfl | rfl
    · rw [h]
      rfl
    · rw [h]
      rfl

/-- Evaluation of `parseWorkDateChars` on a slash day-first rendering. -/
theorem parse_slash_reduces (ypart dpart mpart : List Char)
    (hyl : ypart.length = 4) (hyD : ypart.all Char.isDigit = true)
    (hdl : dpart.length = 1 ∨ dpart.length = 2) (hdD : dpart.all Char.isDigit = true)
    (hml : mpart.length = 1 ∨ mpart.length = 2) (hmD : mpart.all Char.isDigit = true) :
    parseWorkDateChars (dpart ++ '/' :: (mpart ++ '/' :: ypart)) =
      parseDMY '/' dpart mpart ypart := by
  have hne : dpart ++ '/' :: (mpart ++ '/' :: ypart) ≠ [] := by
    intro h
    have := congrArg List.length h
    simp at this
  have hnodash : '-' ∉ dpart ++ '/' :: (mpart ++ '/' :: ypart) := by
    intro hmem
    rcases mem_dmy_render '/' dpart mpart ypart hdD hmD hyD '-' hmem with h | h
    · exact absurd h (by decide)
    · exact absurd h (by decide)
  unfold parseWorkDateChars
  rw [if_neg hne, isoShape?_no_dash _ hnodash,
    dmyShape?_render '/' dpart mpart ypart
      ⟨(sep_not_mem_of_all_digits dpart hdD).2, (sep_not_mem_of_all_digits mpart hmD).2,
        (sep_not_mem_of_all_digits ypart hyD).2⟩ hdl hdD hml hmD hyl hyD]

/-- Evaluation of `parseWorkDateChars` on a dash day-first rendering. -/
theorem parse_dash_reduces (ypart dpart mpart : List Char)
    (hyl : ypart.length = 4) (hyD : ypart.all Char.isDigit = true)
    (hdl : dpart.length = 1 ∨ dpart.length = 2) (hdD : dpart.all Char.isDigit = true)
    (hml : mpart.length = 1 ∨ mpart.length = 2) (hmD : mpart.all Char.isDigit = true) :
    parseWorkDateChars (dpart ++ '-' :: (mpart ++ '-' :: ypart)) =
      parseDMY '-' dpart mpart ypart := by
  have hne : dpart ++ '-' :: (mpart ++ '-' :: ypart) ≠ [] := by
    intro h
    have := congrArg List.length h
    simp at this
  have hnoslash : '/' ∉ dpart ++ '-' :: (mpart ++ '-' :: ypart) := by
    intro hmem
    rcases mem_dmy_render '-' dpart mpart ypart hdD hmD hyD '/' hmem with h | h
    · exact absurd h (by decide)
    · exact absurd h (by decide)
  unfold parseWorkDateChars
  rw [if_neg hne,
    isoShape?_dash_dmy dpart mpart ypart
      ⟨(sep_not_mem_of_all_digits dpart hdD).1, (sep_not_mem_of_all_digits mpart hmD).1,
        (sep_not_mem_of_all_digits ypart hyD).1⟩ hdl,
    dmyShape?_no_sep '/' _ hnoslash,
    dmyShape?_render '-' dpart mpart ypart
      ⟨(sep_not_mem_of_all_digits dpart hdD).1, (sep_not_mem_of_all_digits mpart hmD).1,
        (sep_not_mem_of_all_digits ypart hyD).1⟩ hdl hdD hml hmD hyl hyD]

/-- Evaluation of `parseWorkDateChars` on a (possibly calendar-invalid)
zero-padded ISO rendering: the result is governed by calendar validity. -/
theorem parse_iso_render (y m d : Nat) (hy : y ≤ 9999) (hm : m ≤ 99) (hd : d ≤ 99) :
    parseWorkDateChars (toChar4 y ++ '-' :: (toChar2 m ++ '-' :: toChar2 d)) =
      (if validYMD y m d = true then some (⟨y, m, d⟩ : CivilDate) else none) := by
  obtain ⟨hy4, hyD, hyV⟩ := toChar4_spec y hy
  obtain ⟨hm2, hmD, hmV⟩ := toChar2_spec m hm
  obtain ⟨hd2, hdD, hdV⟩ := toChar2_spec d hd
  have hne : toChar4 y ++ '-' :: (toChar2 m ++ '-' :: toChar2 d) ≠ [] := by
    intro h
    have := congrArg List.length h
    simp at this
  unfold parseWorkDateChars
  rw [if_neg hne, isoShape?_render _ _ _ hy4 hyD hm2 hmD hd2 hdD]
  show (match toDateOpt (digitsVal (toChar4 y)) (digitsVal (toChar2 m))
      (digitsVal (toChar2 d)) with
    | some dt =>
      if toCharISO dt = toChar4 y ++ '-' :: (toChar2 m ++ '-' :: toChar2 d) then some dt
      else none
    | none => none) = _
  rw [hyV, hmV, hdV]
  unfold toDateOpt
  by_cases hvalid : validYMD y m d = true
  · rw [if_pos hvalid]
    show (if toCharISO ⟨y, m, d⟩ = toChar4 y ++ '-' :: (toChar2 m ++ '-' :: toChar2 d)
      then some (⟨y, m, d⟩ : CivilDate) else none) = some (⟨y, m, d⟩ : CivilDate)
    exact if_pos rfl
  · rw [if_neg hvalid]

/-- A valid date passes the `parseDMY` round-trip. -/
theorem parseDMY_eval (sep : Char) (dt : CivilDate) (dpart mpart : List Char)
    (hy : dt.year ≤ 9999)
    (hpd : padZ 2 dpart = toChar2 dt.day) (hpm : padZ 2 mpart = toChar2 dt.month)
    (hdV : digitsVal dpart = dt.day) (hmV : digitsVal mpart = dt.month)
    (hvalid : validYMD dt.year dt.month dt.day = true) :
    parseDMY sep dpart mpart (toChar4 dt.year) = some dt := by
  obtain ⟨_, _, hyV⟩ := toChar4_spec dt.year hy
  simp only [parseDMY]
  rw [hyV, hdV, hmV]
  unfold toDateOpt
  rw [if_pos hvalid]
  show (if toCharDMY sep ⟨dt.year, dt.month, dt.day⟩ =
      padZ 2 dpart ++ sep :: (padZ 2 mpart ++ sep :: toChar4 dt.year) then
      some (⟨dt.year, dt.month, dt.day⟩ : CivilDate) else none) = some dt
  rw [hpd, hpm]
  exact if_pos rfl

/-- A calendar-invalid triple is rejected by `parseDMY`. -/
theorem parseDMY_invalid (sep : Char) (y m d : Nat) (dpart mpart : List Char)
    (hy : y ≤ 9999) (hdV : digitsVal dpart = d) (hmV : digitsVal mpart = m)
    (hinv : validYMD y m d = false) :
    parseDMY sep dpart mpart (toChar4 y) = none := by
  obtain ⟨_, _, hyV⟩ := toChar4_spec y hy
  simp only [parseDMY]
  rw [hyV, hdV, hmV]
  unfold toDateOpt
  rw [if_neg (by simp [hinv])]

/-- Whitespace is not a digit. -/
theorem ws_not_digit (c : Char) (h : isWS c = true) : c.isDigit = false := by
  unfold isWS at h
  simp only [Bool.or_eq_true, decide_eq_true_eq] at h
  rcases h with ((rfl | rfl) | rfl) | rfl
  all_goals rfl

/-- A digit is not whitespace. -/
theorem digit_not_ws (c : Char) (h : c.isDigit = true) : isWS c = false := by
  cases hws : isWS c
  · rfl
  · rw [ws_not_digit c hws] at h
    cases h

/-- Blank (all-whitespace) input is rejected without error. -/
theorem parse_blank_ws (s : String) (h : ∀ c ∈ s.data, isWS c = true) :
    parse_work_date s = none := by
  unfold parse_work_date
  have hnd : ∀ c ∈ trimSpaces s.data, c.isDigit = false :=
    fun c hc => ws_not_digit c (h c (mem_trimWith _ s.data c hc))
  unfold parseWorkDateChars
  by_cases hnil : trimSpaces s.data = []
  · rw [if_pos hnil]
  · rw [if_neg hnil]
    rcases hiso : isoShape? (trimSpaces s.data) with _ | x
    · rcases hs1 : dmyShape? '/' (trimSpaces s.data) with _ | x1
      · rcases hs2 : dmyShape? '-' (trimSpaces s.data) with _ | x2
        · rfl
        · exfalso
          obtain ⟨c, hc, hdg⟩ := dmyShape?_digit '-' _ x2.1 x2.2.1 x2.2.2
            (hs2.trans rfl)
          rw [hnd c hc] at hdg
          cases hdg
      · exfalso
        obtain ⟨c, hc, hdg⟩ := dmyShape?_digit '/' _ x1.1 x1.2.1 x1.2.2
          (hs1.trans rfl)
        rw [hnd c hc] at hdg
        cases hdg
    · exfalso
      obtain ⟨c, hc, hdg⟩ := isoShape?_digit _ x.1 x.2.1 x.2.2 (hiso.trans rfl)
      rw [hnd c hc] at hdg
      cases hdg

/-- `toDateOpt` only produces calendar-valid dates. -/
theorem toDateOpt_valid (y m d : Nat) (dt : CivilDate)
    (h : toDateOpt y m d = some dt) : validYMD dt.year dt.month dt.day = true := by
  unfold toDateOpt at h
  by_cases hv : validYMD y m d = true
  · rw [if_pos hv] at h
    injection h with h2
    rw [← h2]
    exact hv
  · rw [if_neg hv] at h
    cases h

/-- `parseDMY` only produces calendar-valid dates. -/
theorem parseDMY_some_valid (sep : Char) (a b c : List Char) (dt : CivilDate)
    (h : parseDMY sep a b c = some dt) : validYMD dt.year dt.month dt.day = true := by
  simp only [parseDMY] at h
  rcases htd : toDateOpt (digitsVal c) (digitsVal b) (digitsVal a) with _ | dt0
  · rw [htd] at h
    have h2 : (none : Option CivilDate) = some dt := h
    cases h2
  · rw [htd] at h
    have h3 : (if toCharDMY sep dt0 = padZ 2 a ++ sep :: (padZ 2 b ++ sep :: c) then
        some dt0 else none) = some dt := h
    by_cases hrt : toCharDMY sep dt0 = padZ 2 a ++ sep :: (padZ 2 b ++ sep :: c)
    · rw [if_pos hrt] at h3
      injection h3 with h2
      rw [← h2]
      exact toDateOpt_valid _ _ _ _ htd
    · rw [if_neg hrt] at h3
      cases h3

/-- A successful parse is calendar-valid and comes from one of the
three accepted shapes. -/
theorem parse_some_valid_shape (s : String) (dt : CivilDate)
    (h : parse_work_date s = some dt) :
    validYMD dt.year dt.month dt.day = true ∧
    ((isoShape? (trimSpaces s.data)).isSome = true ∨
     (dmyShape? '/' (trimSpaces s.data)).isSome = true ∨
     (dmyShape? '-' (trimSpaces s.data)).isSome = true) := by
  unfold parse_work_date parseWorkDateChars at h
  by_cases hnil : trimSpaces s.data = []
  · rw [if_pos hnil] at h
    cases h
  · rw [if_neg hnil] at h
    rcases hiso : isoShape? (trimSpaces s.data) with _ | x
    · rw [hiso] at h
      rcases hs1 : dmyShape? '/' (trimSpaces s.data) with _ | x1
      · rw [hs1] at h
        rcases hs2 : dmyShape? '-' (trimSpaces s.data) with _ | x2
        · rw [hs2] at h
          have h2 : (none : Option CivilDate) = some dt := h
          cases h2
        · rw [hs2] at h
          have h2 : parseDMY '-' x2.1 x2.2.1 x2.2.2 = some dt := h
          exact ⟨parseDMY_some_valid '-' _ _ _ dt h2, Or.inr (Or.inr rfl)⟩
      · rw [hs1] at h
        have h2 : parseDMY '/' x1.1 x1.2.1 x1.2.2 = some dt := h
        exact ⟨parseDMY_some_valid '/' _ _ _ dt h2, Or.inr (Or.inl rfl)⟩
    · rw [hiso] at h
      refine ⟨?_, Or.inl rfl⟩
      have h2 : (match toDateOpt (digitsVal x.1) (digitsVal x.2.1) (digitsVal x.2.2) with
        | some dt0 => if toCharISO dt0 = trimSpaces s.data then some dt0 else none
        | none => none) = some dt := h
      rcases htd : toDateOpt (digitsVal x.1) (digitsVal x.2.1) (digitsVal x.2.2) with _ | dt0
      · rw [htd] at h2
        have h3 : (none : Option CivilDate) = some dt := h2
        cases h3
      · rw [htd] at h2
        have h3 : (if toCharISO dt0 = trimSpaces s.data then some dt0 else none) =
            some dt := h2
        by_cases hrt : toCharISO dt0 = trimSpaces s.data
        · rw [if_pos hrt] at h3
          injection h3 with h4
          rw [← h4]
          exact toDateOpt_valid _ _ _ _ htd
        · rw [if_neg hrt] at h3
          cases h3

/-- Evaluation of the client's `buildIsoDate` on padded components. -/
theorem buildIsoDate_eval (y m d : Nat) (hy : y ≤ 9999) (hm : m ≤ 99) (hd : d ≤ 99)
    (hv : validYMD y m d = true) :
    buildIsoDate (toChar4 y) (toChar2 m) (toChar2 d) = toCharISO ⟨y, m, d⟩ := by
  obtain ⟨hy4, _, hyV⟩ := toChar4_spec y hy
  obtain ⟨hm2, _, hmV⟩ := toChar2_spec m hm
  obtain ⟨hd2, _, hdV⟩ := toChar2_spec d hd
  simp only [buildIsoDate]
  rw [padZ_eq_self_of_le 4 _ (by rw [hy4]), padZ_eq_self_of_le 2 _ (by rw [hm2]),
    padZ_eq_self_of_le 2 _ (by rw [hd2]), hyV, hmV, hdV]
  unfold toDateOpt
  rw [if_pos hv]
  show (if (⟨y, m, d⟩ : CivilDate).year = y ∧ (⟨y, m, d⟩ : CivilDate).month = m ∧
      (⟨y, m, d⟩ : CivilDate).day = d then
      toChar4 y ++ '-' :: (toChar2 m ++ '-' :: toChar2 d) else []) = toCharISO ⟨y, m, d⟩
  rw [if_pos ⟨rfl, rfl, rfl⟩]
  rfl


/-- Evaluation of `parse_work_date` on a canonical ISO rendering of a
valid date. -/
theorem parse_work_date_iso (dt : CivilDate) (hy : dt.year ≤ 9999)
    (hv : validYMD dt.year dt.month dt.day = true) :
    parse_work_date (String.mk (toCharISO dt)) = some dt := by
  obtain ⟨_, hm12, _, hd31⟩ := validYMD_bounds dt.year dt.month dt.day hv
  obtain ⟨_, hyD, _⟩ := toChar4_spec dt.year hy
  obtain ⟨_, hmD, _⟩ := toChar2_spec dt.month (by omega)
  obtain ⟨_, hdD, _⟩ := toChar2_spec dt.day (by omega)
  show parseWorkDateChars (trimSpaces
    (toChar4 dt.year ++ '-' :: (toChar2 dt.month ++ '-' :: toChar2 dt.day))) = some dt
  rw [trimSpaces_dmy_render '-' (Or.inr rfl) _ _ _ hyD hmD hdD,
    parse_iso_render dt.year dt.month dt.day hy (by omega) (by omega), if_pos hv]

/-- Evaluation of `parse_work_date` on a day-first rendering of a valid
date, for any separator and any (possibly unpadded) digit fields whose
zero-padding matches the canonical two-digit forms. -/
theorem parse_work_date_dmy (sep : Char) (hsep : sep = '/' ∨ sep = '-')
    (dt : CivilDate) (dpart mpart : List Char)
    (hy : dt.year ≤ 9999) (hv : validYMD dt.year dt.month dt.day = true)
    (hdl : dpart.length = 1 ∨ dpart.length = 2) (hdD : dpart.all Char.isDigit = true)
    (hml : mpart.length = 1 ∨ mpart.length = 2) (hmD : mpart.all Char.isDigit = true)
    (hpd : padZ 2 dpart = toChar2 dt.day) (hpm : padZ 2 mpart = toChar2 dt.month)
    (hdV : digitsVal dpart = dt.day) (hmV : digitsVal mpart = dt.month) :
    parse_work_date (String.mk (dpart ++ sep :: (mpart ++ sep :: toChar4 dt.year))) =
      some dt := by
  obtain ⟨hy4, hyD, _⟩ := toChar4_spec dt.year hy
  show parseWorkDateChars (trimSpaces (dpart ++ sep :: (mpart ++ sep :: toChar4 dt.year))) =
    some dt
  rw [trimSpaces_dmy_render sep hsep _ _ _ hdD hmD hyD]
  rcases hsep with rfl | rfl
  · rw [parse_slash_reduces (toChar4 dt.year) dpart mpart hy4 hyD hdl hdD hml hmD]
    exact parseDMY_eval '/' dt dpart mpart hy hpd hpm hdV hmV hv
  · rw [parse_dash_reduces (toChar4 dt.year) dpart mpart hy4 hyD hdl hdD hml hmD]
    exact parseDMY_eval '-' dt dpart mpart hy hpd hpm hdV hmV hv

/-- `parse_work_date` rejects a day-first rendering of a calendar-invalid
triple (the round-trip guard). -/
theorem parse_work_date_dmy_invalid (sep : Char) (hsep : sep = '/' ∨ sep = '-')
    (y m d : Nat) (hy : y ≤ 9999) (hm : m ≤ 99) (hd : d ≤ 99)
    (hinv : validYMD y m d = false) :
    parse_work_date (String.mk (toChar2 d ++ sep :: (toChar2 m ++ sep :: toChar4 y))) =
      none := by
  obtain ⟨hy4, hyD, _⟩ := toChar4_spec y hy
  obtain ⟨hm2, hmD, hmV⟩ := toChar2_spec m hm
  obtain ⟨hd2, hdD, hdV⟩ := toChar2_spec d hd
  show parseWorkDateChars (trimSpaces (toChar2 d ++ sep :: (toChar2 m ++ sep :: toChar4 y))) =
    none
  rw [trimSpaces_dmy_render sep hsep _ _ _ hdD hmD hyD]
  rcases hsep with rfl | rfl
  · rw [parse_slash_reduces (toChar4 y) (toChar2 d) (toChar2 m) hy4 hyD (Or.inr hd2) hdD
      (Or.inr hm2) hmD]
    exact parseDMY_invalid '/' y m d (toChar2 d) (toChar2 m) hy hdV hmV hinv
  · rw [parse_dash_reduces (toChar4 y) (toChar2 d) (toChar2 m) hy4 hyD (Or.inr hd2) hdD
      (Or.inr hm2) hmD]
    exact parseDMY_invalid '-' y m d (toChar2 d) (toChar2 m) hy hdV hmV hinv

/-- `parse_work_date` rejects an ISO rendering of a calendar-invalid
triple. -/
theorem parse_work_date_iso_invalid (y m d : Nat) (hy : y ≤ 9999) (hm : m ≤ 99)
    (hd : d ≤ 99) (hinv : validYMD y m d = false) :
    parse_work_date (String.mk (toChar4 y ++ '-' :: (toChar2 m ++ '-' :: toChar2 d))) =
      none := by
  obtain ⟨_, hyD, _⟩ := toChar4_spec y hy
  obtain ⟨_, hmD, _⟩ := toChar2_spec m hm
  obtain ⟨_, hdD, _⟩ := toChar2_spec d hd
  show parseWorkDateChars (trimSpaces (toChar4 y ++ '-' :: (toChar2 m ++ '-' :: toChar2 d))) =
    none
  rw [trimSpaces_dmy_render '-' (Or.inr rfl) _ _ _ hyD hmD hdD,
    parse_iso_render y m d hy hm hd, if_neg (by simp [hinv])]

/-- The client's `buildIsoDate` rejects a calendar-invalid triple. -/
theorem buildIsoDate_invalid (y m d : Nat) (hy : y ≤ 9999) (hm : m ≤ 99) (hd : d ≤ 99)
    (hinv : validYMD y m d = false) :
    buildIsoDate (toChar4 y) (toChar2 m) (toChar2 d) = [] := by
  obtain ⟨hy4, _, hyV⟩ := toChar4_spec y hy
  obtain ⟨hm2, _, hmV⟩ := toChar2_spec m hm
  obtain ⟨hd2, _, hdV⟩ := toChar2_spec d hd
  simp only [buildIsoDate]
  rw [padZ_eq_self_of_le 4 _ hy4.ge, padZ_eq_self_of_le 2 _ hm2.ge,
    padZ_eq_self_of_le 2 _ hd2.ge, hyV, hmV, hdV]
  unfold toDateOpt
  rw [if_neg (by simp [hinv])]

/-- Unfolding of the client normalizer over an explicit character list. -/
theorem parseCsvDateToIso_chars (R : List Char) :
    parseCsvDateToIso (String.mk R) =
      (if trimWS R = [] then "" else
        match isoShape? (trimWS R) with
        | some (y, m, d) => String.mk (buildIsoDate y m d)
        | none =>
          match dmyShape? '/' (trimWS R) with
          | some (d, m, y) => String.mk (buildIsoDate y m d)
          | none =>
            match dmyShape? '-' (trimWS R) with
            | some (d, m, y) => String.mk (buildIsoDate y m d)
            | none => "") := rfl

/-- `dropWhile` consumes an all-satisfying list completely. -/
theorem dropWhile_nil_of_all {p : Char → Bool} :
    ∀ cs : List Char, (∀ c ∈ cs, p c = true) → cs.dropWhile p = [] := by
  intro cs
  induction cs with
  | nil => intro _; rfl
  | cons c rest ih =>
    intro h
    rw [List.dropWhile_cons, if_pos (h c (List.mem_cons_self c rest))]
    exact ih (fun x hx => h x (List.mem_cons_of_mem c hx))

/-- The client normalizer maps blank (all-whitespace) input to the empty
string rather than raising. -/
theorem parseCsvDateToIso_blank (s : String) (h : ∀ c ∈ s.data, isWS c = true) :
    parseCsvDateToIso s = "" := by
  have hnil : trimWS s.data = [] := by
    show trimWith isWS s.data = []
    unfold trimWith
    rw [dropWhile_nil_of_all s.data h]
    rfl
  simp only [parseCsvDateToIso]
  rw [hnil]
  rfl

/-- The client normalizer maps the canonical ISO rendering of a valid
date to the canonical ISO string. -/
theorem parseCsvDateToIso_iso (dt : CivilDate) (hy : dt.year ≤ 9999)
    (hv : validYMD dt.year dt.month dt.day = true) :
    parseCsvDateToIso (String.mk (toCharISO dt)) = civilToIso dt := by
  obtain ⟨_, hm12, _, hd31⟩ := validYMD_bounds dt.year dt.month dt.day hv
  obtain ⟨hy4, hyD, _⟩ := toChar4_spec dt.year hy
  obtain ⟨hm2, hmD, _⟩ := toChar2_spec dt.month (by omega)
  obtain ⟨hd2, hdD, _⟩ := toChar2_spec dt.day (by omega)
  have htrim : trimWS (toChar4 dt.year ++ '-' :: (toChar2 dt.month ++ '-' :: toChar2 dt.day)) =
      toChar4 dt.year ++ '-' :: (toChar2 dt.month ++ '-' :: toChar2 dt.day) :=
    trimWith_eq_self isWS _ (fun c hc => by
      rcases mem_dmy_render '-' _ _ _ hyD hmD hdD c hc with h | h
      · exact digit_not_ws c h
      · rw [h]
        rfl)
  have hne : toChar4 dt.year ++ '-' :: (toChar2 dt.month ++ '-' :: toChar2 dt.day) ≠ [] := by
    intro h
    have := congrArg List.length h
    simp at this
  show parseCsvDateToIso (String.mk (toChar4 dt.year ++ '-' ::
    (toChar2 dt.month ++ '-' :: toChar2 dt.day))) = civilToIso dt
  rw [parseCsvDateToIso_chars, htrim, if_neg hne,
    isoShape?_render _ _ _ hy4 hyD hm2 hmD hd2 hdD]
  show String.mk (buildIsoDate (toChar4 dt.year) (toChar2 dt.month) (toChar2 dt.day)) =
    civilToIso dt
  rw [buildIsoDate_eval dt.year dt.month dt.day hy (by omega) (by omega) hv]
  rfl

/-- The client normalizer maps the padded slash rendering of a valid
date to the canonical ISO string. -/
theorem parseCsvDateToIso_slash (dt : CivilDate) (hy : dt.year ≤ 9999)
    (hv : validYMD dt.year dt.month dt.day = true) :
    parseCsvDateToIso (String.mk (toCharDMY '/' dt)) = civilToIso dt := by
  obtain ⟨_, hm12, _, hd31⟩ := validYMD_bounds dt.year dt.month dt.day hv
  obtain ⟨hy4, hyD, _⟩ := toChar4_spec dt.year hy
  obtain ⟨hm2, hmD, _⟩ := toChar2_spec dt.month (by omega)
  obtain ⟨hd2, hdD, _⟩ := toChar2_spec dt.day (by omega)
  have htrim : trimWS (toChar2 dt.day ++ '/' :: (toChar2 dt.month ++ '/' :: toChar4 dt.year)) =
      toChar2 dt.day ++ '/' :: (toChar2 dt.month ++ '/' :: toChar4 dt.year) :=
    trimWith_eq_self isWS _ (fun c hc => by
      rcases mem_dmy_render '/' _ _ _ hdD hmD hyD c hc with h | h
      · exact digit_not_ws c h
      · rw [h]
        rfl)
  have hne : toChar2 dt.day ++ '/' :: (toChar2 dt.month ++ '/' :: toChar4 dt.year) ≠ [] := by
    intro h
    have := congrArg List.length h
    simp at this
  have hnodash : '-' ∉ toChar2 dt.day ++ '/' :: (toChar2 dt.month ++ '/' :: toChar4 dt.year) := by
    intro hmem
    rcases mem_dmy_render '/' _ _ _ hdD hmD hyD '-' hmem with h | h
    · exact absurd h (by decide)
    · exact absurd h (by decide)
  show parseCsvDateToIso (String.mk (toChar2 dt.day ++ '/' ::
    (toChar2 dt.month ++ '/' :: toChar4 dt.year))) = civilToIso dt
  rw [parseCsvDateToIso_chars, htrim, if_neg hne, isoShape?_no_dash _ hnodash,
    dmyShape?_render '/' _ _ _
      ⟨(sep_not_mem_of_all_digits _ hdD).2, (sep_not_mem_of_all_digits _ hmD).2,
        (sep_not_mem_of_all_digits _ hyD).2⟩ (Or.inr hd2) hdD (Or.inr hm2) hmD hy4 hyD]
  show String.mk (buildIsoDate (toChar4 dt.year) (toChar2 dt.month) (toChar2 dt.day)) =
    civilToIso dt
  rw [buildIsoDate_eval dt.year dt.month dt.day hy (by omega) (by omega) hv]
  rfl

/-- The client normalizer rejects a padded slash rendering of a
calendar-invalid triple. -/
theorem parseCsvDateToIso_slash_invalid (y m d : Nat) (hy : y ≤ 9999) (hm : m ≤ 99)
    (hd : d ≤ 99) (hinv : validYMD y m d = false) :
    parseCsvDateToIso (String.mk (toChar2 d ++ '/' :: (toChar2 m ++ '/' :: toChar4 y))) =
      "" := by
  obtain ⟨hy4, hyD, _⟩ := toChar4_spec y hy
  obtain ⟨hm2, hmD, _⟩ := toChar2_spec m hm
  obtain ⟨hd2, hdD, _⟩ := toChar2_spec d hd
  have htrim : trimWS (toChar2 d ++ '/' :: (toChar2 m ++ '/' :: toChar4 y)) =
      toChar2 d ++ '/' :: (toChar2 m ++ '/' :: toChar4 y) :=
    trimWith_eq_self isWS _ (fun c hc => by
      rcases mem_dmy_render '/' _ _ _ hdD hmD hyD c hc with h | h
      · exact digit_not_ws c h
      · rw [h]
        rfl)
  have hne : toChar2 d ++ '/' :: (toChar2 m ++ '/' :: toChar4 y) ≠ [] := by
    intro h
    have := congrArg List.length h
    simp at this
  have hnodash : '-' ∉ toChar2 d ++ '/' :: (toChar2 m ++ '/' :: toChar4 y) := by
    intro hmem
    rcases mem_dmy_render '/' _ _ _ hdD hmD hyD '-' hmem with h | h
    · exact absurd h (by decide)
    · exact absurd h (by decide)
  rw [parseCsvDateToIso_chars, htrim, if_neg hne, isoShape?_no_dash _ hnodash,
    dmyShape?_render '/' _ _ _
      ⟨(sep_not_mem_of_all_digits _ hdD).2, (sep_not_mem_of_all_digits _ hmD).2,
        (sep_not_mem_of_all_digits _ hyD).2⟩ (Or.inr hd2) hdD (Or.inr hm2) hmD hy4 hyD]
  show String.mk (buildIsoDate (toChar4 y) (toChar2 m) (toChar2 d)) = ""
  rw [buildIsoDate_invalid y m d hy hm hd hinv]

/-- C5: the date normalizers accept exactly the three shapes with a
4-digit year — blank input yields no date on both sides; every valid
date parses identically (to the same canonical date) from its ISO,
padded slash, padded dash and unpadded slash/dash renderings, and the
client normalizer maps the ISO and slash renderings to the canonical ISO
string; calendar-invalid component triples are rejected in every shape
(the round-trip guard); and any accepted input is calendar-valid and
matched one of the three shapes. -/
theorem C5_date_normalizer :
    (∀ s : String, (∀ c ∈ s.data, isWS c = true) →
      parse_work_date s = none ∧ parseCsvDateToIso s = "") ∧
    (∀ dt : CivilDate, dt.year ≤ 9999 → validYMD dt.year dt.month dt.day = true →
      parse_work_date (String.mk (toCharISO dt)) = some dt ∧
      parse_work_date (String.mk (toCharDMY '/' dt)) = some dt ∧
      parse_work_date (String.mk (toCharDMY '-' dt)) = some dt ∧
      parse_work_date (String.mk
        (natToChars dt.day ++ '/' :: (natToChars dt.month ++ '/' :: toChar4 dt.year))) =
        some dt ∧
      parse_work_date (String.mk
        (natToChars dt.day ++ '-' :: (natToChars dt.month ++ '-' :: toChar4 dt.year))) =
        some dt ∧
      parseCsvDateToIso (String.mk (toCharISO dt)) = civilToIso dt ∧
      parseCsvDateToIso (String.mk (toCharDMY '/' dt)) = civilToIso dt) ∧
    (∀ y m d : Nat, y ≤ 9999 → m ≤ 99 → d ≤ 99 → validYMD y m d = false →
      parse_work_date (String.mk (toChar2 d ++ '/' :: (toChar2 m ++ '/' :: toChar4 y))) =
        none ∧
      parse_work_date (String.mk (toChar2 d ++ '-' :: (toChar2 m ++ '-' :: toChar4 y))) =
        none ∧
      parse_work_date (String.mk (toChar4 y ++ '-' :: (toChar2 m ++ '-' :: toChar2 d))) =
        none ∧
      parseCsvDateToIso (String.mk (toChar2 d ++ '/' :: (toChar2 m ++ '/' :: toChar4 y))) =
        "") ∧
    (∀ (s : String) (dt : CivilDate), parse_work_date s = some dt →
      validYMD dt.year dt.month dt.day = true ∧
      ((isoShape? (trimSpaces s.data)).isSome = true ∨
       (dmyShape? '/' (trimSpaces s.data)).isSome = true ∨
       (dmyShape? '-' (trimSpaces s.data)).isSome = true)) := by
  refine ⟨?_, ?_, ?_, ?_⟩
  · intro s h
    exact ⟨parse_blank_ws s h, parseCsvDateToIso_blank s h⟩
  · intro dt hy hv
    obtain ⟨hm1, hm12, hd1, hd31⟩ := validYMD_bounds dt.year dt.month dt.day hv
    obtain ⟨hd2, hdD, hdV⟩ := toChar2_spec dt.day (by omega)
    obtain ⟨hm2, hmD, hmV⟩ := toChar2_spec dt.month (by omega)
    have hdl : (natToChars dt.day).length = 1 ∨ (natToChars dt.day).length = 2 := by
      have h1 := natToChars_length_le dt.day 2 (by norm_num) (by omega)
      have h2 : (natToChars dt.day).length ≠ 0 :=
        fun h0 => natToChars_ne_nil dt.day (List.length_eq_zero.mp h0)
      omega
    have hml : (natToChars dt.month).length = 1 ∨ (natToChars dt.month).length = 2 := by
      have h1 := natToChars_length_le dt.month 2 (by norm_num) (by omega)
      have h2 : (natToChars dt.month).length ≠ 0 :=
        fun h0 => natToChars_ne_nil dt.month (List.length_eq_zero.mp h0)
      omega
    exact ⟨parse_work_date_iso dt hy hv,
      parse_work_date_dmy '/' (Or.inl rfl) dt _ _ hy hv (Or.inr hd2) hdD (Or.inr hm2) hmD
        (padZ_eq_self_of_le 2 _ hd2.ge) (padZ_eq_self_of_le 2 _ hm2.ge) hdV hmV,
      parse_work_date_dmy '-' (Or.inr rfl) dt _ _ hy hv (Or.inr hd2) hdD (Or.inr hm2) hmD
        (padZ_eq_self_of_le 2 _ hd2.ge) (padZ_eq_self_of_le 2 _ hm2.ge) hdV hmV,
      parse_work_date_dmy '/' (Or.inl rfl) dt _ _ hy hv hdl (natToChars_all_digits _)
        hml (natToChars_all_digits _) rfl rfl (digitsVal_natToChars _)
        (digitsVal_natToChars _),
      parse_work_date_dmy '-' (Or.inr rfl) dt _ _ hy hv hdl (natToChars_all_digits _)
        hml (natToChars_all_digits _) rfl rfl (digitsVal_natToChars _)
        (digitsVal_natToChars _),
      parseCsvDateToIso_iso dt hy hv, parseCsvDateToIso_slash dt hy hv⟩
  · intro y m d hy hm hd hinv
    exact ⟨parse_work_date_dmy_invalid '/' (Or.inl rfl) y m d hy hm hd hinv,
      parse_work_date_dmy_invalid '-' (Or.inr rfl) y m d hy hm hd hinv,
      parse_work_date_iso_invalid y m d hy hm hd hinv,
      parseCsvDateToIso_slash_invalid y m d hy hm hd hinv⟩
  · intro s dt h
    exact parse_some_valid_shape s dt h

/-- Concrete instances of the date-normalizer theorem: blank input,
the overflow date 31/02/2024, and the valid date 10/03/2025. -/
theorem C5_date_normalizer_witness :
    (parse_work_date "   " = none ∧ parseCsvDateToIso "   " = "") ∧
    (validYMD 2024 2 31 = false ∧
      parse_work_date (String.mk (toChar2 31 ++ '/' :: (toChar2 2 ++ '/' :: toChar4 2024))) =
        none) ∧
    (validYMD 2025 3 10 = true ∧
      parse_work_date (String.mk (toCharDMY '/' (⟨2025, 3, 10⟩ : CivilDate))) =
        some ⟨2025, 3, 10⟩) := by
  refine ⟨?_, ⟨by decide, ?_⟩, ⟨by decide, ?_⟩⟩
  · exact C5_date_normalizer.1 "   " (by decide)
  · exact (C5_date_normalizer.2.2.1 2024 2 31 (by decide) (by decide) (by decide)
      (by decide)).1
  · exact (C5_date_normalizer.2.1 ⟨2025, 3, 10⟩ (by decide) (by decide)).2.1


end SSMM
